/-
Verification of the firebase-mcp security layer.

This file gives a shallow embedding of the four security components of the
repository (src/lib/security/authMiddleware.ts, accessControl.ts,
rateLimiter.ts, auditLogger.ts) and proves properties of them.

Modelling conventions used throughout:
* JavaScript `Map` objects become association lists `List (String × β)`
  with `Map.set` updating in place (JS maps keep insertion order).
* Timestamps (`Date.now()` milliseconds) become `Int`; every operation that
  reads the clock takes the current time as an explicit argument.
* JS numbers become `Rat` where fractional arithmetic matters (token
  buckets) and `Int`/`Nat` elsewhere.  JS floating point rounding is not
  modelled; all quantities appearing in the claims are exact in `Rat`.
* Request headers become `Option String` arguments; JS truthiness of a
  header string `s` is `s ≠ ""`.
* Randomness (session ids, tokens) and cryptography (SHA-256, JWT) are
  passed in as explicit function arguments: `hash` for
  `crypto.createHash("sha256")`, `genToken` for `jwt.sign`, `verifyTok`
  for `jwt.verify`, and fresh identifiers as plain string arguments.
* File-system effects are modelled by explicit state (a list of files) and
  oracles for failures (`Option` arguments standing for thrown errors).
-/
import Mathlib

namespace FirebaseMcp

/-- Lookup in a JS `Map` modelled as an association list. -/
def mapGet {β : Type} (k : String) : List (String × β) → Option β
  | [] => none
  | (k', v) :: rest => if k' = k then some v else mapGet k rest

/-- JS `Map.set`: update in place when the key exists, else append. -/
def mapSet {β : Type} (k : String) (v : β) : List (String × β) → List (String × β)
  | [] => [(k, v)]
  | (k', v') :: rest => if k' = k then (k, v) :: rest else (k', v') :: mapSet k v rest

/-- JS `Map.delete`: remove the binding for the key. -/
def mapDel {β : Type} (k : String) : List (String × β) → List (String × β)
  | [] => []
  | (k', v') :: rest => if k' = k then rest else (k', v') :: mapDel k rest

/-! ## Authentication middleware (src/lib/security/authMiddleware.ts) -/

/-- Client status, `"active" | "disabled"` in the source. -/
inductive ClientStatus where
  | active
  | disabled
deriving DecidableEq

/-- `Client` record from authMiddleware.ts (the `apiKey` field stores the
SHA-256 hash of the shared secret). -/
structure Client where
  clientId : String
  apiKey : String
  description : String
  createdAt : Int
  updatedAt : Int
  status : ClientStatus
deriving DecidableEq

/-- `Session` record from authMiddleware.ts. -/
structure Session where
  sessionId : String
  clientId : String
  token : String
  createdAt : Int
  expiresAt : Int
  lastUsed : Int
deriving DecidableEq

/-- Entry of the `failedAttempts` map. -/
structure FailedAttempts where
  count : Nat
  lastAttempt : Int
deriving DecidableEq

/-- Mutable state of `AuthMiddleware`: the three maps `clients`,
`sessions` and `failedAttempts`. -/
structure AuthState where
  clients : List (String × Client)
  sessions : List (String × Session)
  failedAttempts : List (String × FailedAttempts)
deriving DecidableEq

/-- The slice of `AuthOptions` the authentication logic reads (header
names and file paths are transport and environment concerns and appear in
the model as explicit arguments instead). -/
structure AuthOptions where
  tokenExpirationMinutes : Int
deriving DecidableEq

/-- Outcome of `AuthMiddleware.authenticate`: either an auth context
`req.auth = {clientId, sessionId}` or an `McpError` whose message is the
string thrown by the source. -/
inductive AuthResult where
  | ok (clientId sessionId : String)
  | err (message : String)
deriving DecidableEq

/-- `AuthMiddleware.validateApiKey`: the client must exist and be active,
and the hash of the supplied key must equal the stored hash. -/
def validateApiKey (hash : String → String) (st : AuthState)
    (clientId apiKey : String) : Bool :=
  match mapGet clientId st.clients with
  | none => false
  | some c => c.status == ClientStatus.active && hash apiKey == c.apiKey

/-- `AuthMiddleware.createSession`: mint a session with the supplied fresh
identifier, a token from `jwt.sign`, and a fixed expiry window. -/
def createSession (opts : AuthOptions) (genToken : String → String)
    (freshId : String) (now : Int) (clientId : String) (st : AuthState) :
    Session × AuthState :=
  let s : Session :=
    { sessionId := freshId
      clientId := clientId
      token := genToken clientId
      createdAt := now
      expiresAt := now + opts.tokenExpirationMinutes * 60 * 1000
      lastUsed := now }
  (s, { st with sessions := mapSet freshId s st.sessions })

/-- `AuthMiddleware.recordFailedAttempt`: bump the counter for the key, or
create it with count 1. -/
def recordFailedAttempt (now : Int) (ipKey : String)
    (m : List (String × FailedAttempts)) : List (String × FailedAttempts) :=
  match mapGet ipKey m with
  | some a => mapSet ipKey { count := a.count + 1, lastAttempt := now } m
  | none => mapSet ipKey { count := 1, lastAttempt := now } m

/-- JS truthiness of an optional header string. -/
def hTruthy : Option String → Bool
  | some s => s ≠ ""
  | none => false

/-- The lockout window: 15 minutes in milliseconds. -/
def lockoutWindowMs : Int := 15 * 60 * 1000

/-- Error message thrown on lockout. -/
def lockedMsg : String := "Too many failed authentication attempts. Try again later."

/-- The three credential cases of `AuthMiddleware.authenticate`, entered
after the failed-attempt pre-check. -/
def authCases (opts : AuthOptions) (hash genToken : String → String)
    (verifyTok : String → Option String) (now : Int) (ipKey : String)
    (clientIdH apiKeyH sessionIdH tokenH : Option String)
    (freshId : String) (st : AuthState) : AuthResult × AuthState :=
  let record := fun (s : AuthState) =>
    { s with failedAttempts := recordFailedAttempt now ipKey s.failedAttempts }
  -- Case 1: session id provided.
  if hTruthy sessionIdH then
    let sid := sessionIdH.getD ""
    match mapGet sid st.sessions with
    | none => (AuthResult.err "Invalid session", record st)
    | some s =>
      if s.expiresAt < now then
        (AuthResult.err "Session expired",
          record { st with sessions := mapDel sid st.sessions })
      else
        (AuthResult.ok s.clientId sid,
          { st with sessions := mapSet sid { s with lastUsed := now } st.sessions })
  -- Case 2: client id and API key provided.
  else if hTruthy clientIdH && hTruthy apiKeyH then
    let cid := clientIdH.getD ""
    if validateApiKey hash st cid (apiKeyH.getD "") then
      let (s, st') := createSession opts genToken freshId now cid st
      (AuthResult.ok cid s.sessionId, st')
    else
      (AuthResult.err "Invalid API key", record st)
  -- Case 3: bearer token provided.
  else if hTruthy tokenH then
    match verifyTok (tokenH.getD "") with
    | none => (AuthResult.err "Invalid token", record st)
    | some cid =>
      let (s, st') := createSession opts genToken freshId now cid st
      (AuthResult.ok cid s.sessionId, st')
  -- No authentication provided.
  else
    (AuthResult.err "Authentication required", record st)

/-- The failed-attempt key
`` `${clientIp}:${clientId || "anonymous"}` ``. -/
def ipKeyOf (clientIp : String) (clientIdH : Option String) : String :=
  clientIp ++ ":" ++
    (match clientIdH with
     | some s => if s ≠ "" then s else "anonymous"
     | none => "anonymous")

/-- `AuthMiddleware.authenticate`.  The ip key is
`clientIp ++ ":" ++ (clientId or "anonymous")`; the failed-attempt map is
consulted first (entries older than 15 minutes decay, a count of 5 or more
locks the request out), then the three credential cases run. -/
def authenticate (opts : AuthOptions) (hash genToken : String → String)
    (verifyTok : String → Option String) (now : Int) (clientIp : String)
    (clientIdH apiKeyH sessionIdH tokenH : Option String)
    (freshId : String) (st : AuthState) : AuthResult × AuthState :=
  let ipKey := ipKeyOf clientIp clientIdH
  match mapGet ipKey st.failedAttempts with
  | some att =>
    if now - att.lastAttempt > lockoutWindowMs then
      authCases opts hash genToken verifyTok now ipKey
        clientIdH apiKeyH sessionIdH tokenH freshId
        { st with failedAttempts := mapDel ipKey st.failedAttempts }
    else if att.count ≥ 5 then
      (AuthResult.err lockedMsg, st)
    else
      authCases opts hash genToken verifyTok now ipKey
        clientIdH apiKeyH sessionIdH tokenH freshId st
  | none =>
    authCases opts hash genToken verifyTok now ipKey
      clientIdH apiKeyH sessionIdH tokenH freshId st

/-- `AuthManager.disableClient` (auth.ts), applied to the client store:
mark the client disabled if present.  (The middleware and the manager each
hold a copy of the client directory; we model the directory once.) -/
def disableClient (clientId : String) (st : AuthState) : Bool × AuthState :=
  match mapGet clientId st.clients with
  | some c =>
    (true, { st with clients := mapSet clientId { c with status := ClientStatus.disabled } st.clients })
  | none => (false, st)

/-! ## JSON values

`Record<string, any>` values (rule conditions, request contexts, audit
entries and their metadata) are modelled by a JSON value type.  Objects
and arrays carry their entries in order, as JS `Object.entries` does. -/

mutual

inductive JVal where
  | str (s : String)
  | num (n : Int)
  | boolean (b : Bool)
  | null
  | obj (fields : JFields)
  | arr (elems : JElems)

inductive JFields where
  | nil
  | fcons (key : String) (val : JVal) (rest : JFields)

inductive JElems where
  | enil
  | econs (val : JVal) (rest : JElems)

end

/-- JS truthiness of a value. -/
def truthy : JVal → Bool
  | JVal.str s => s ≠ ""
  | JVal.num n => n ≠ 0
  | JVal.boolean b => b
  | JVal.null => false
  | JVal.obj _ => true
  | JVal.arr _ => true

/-- JS strict equality `===` on values that come from parsed JSON (a config
file on one side, a request body on the other): primitives compare by
value; two objects or arrays from different parses are distinct references
and never strictly equal. -/
def jsStrictEq : JVal → JVal → Bool
  | JVal.str a, JVal.str b => a == b
  | JVal.num a, JVal.num b => a == b
  | JVal.boolean a, JVal.boolean b => a == b
  | JVal.null, JVal.null => true
  | _, _ => false

/-- Property lookup `o[key]` on an object (first binding wins; JS object
keys are unique). -/
def fieldGet (k : String) : JFields → Option JVal
  | JFields.nil => none
  | JFields.fcons k' v rest => if k' = k then some v else fieldGet k rest

/-- Property lookup on an arbitrary value: non-objects have no properties. -/
def jvalGet (k : String) : JVal → Option JVal
  | JVal.obj fs => fieldGet k fs
  | _ => none

/-! ## Access control (src/lib/security/accessControl.ts) -/

/-- The optional `conditions` payload of an access rule. -/
structure RuleConditions where
  fields : Option JFields
  custom : Option String

/-- `AccessRule` from accessControl.ts. -/
structure AccessRule where
  clientId : String
  resource : String
  actions : List String
  conditions : Option RuleConditions

/-- The regex special characters escaped by `matchPattern`
(the character class `[-\/\\^$*+?.()|[\]{}]`). -/
def specialChars : List Char :=
  ['-', '/', '\\', '^', '$', '*', '+', '?', '.', '(', ')', '|', '[', ']', '\x7b', '\x7d']

/-- Step 1 of `matchPattern`: `.replace(/[-\/\\^$*+?.()|[\]{}]/g, "\\$&")`,
prefixing every special character with a backslash. -/
def escapeRegex : List Char → List Char
  | [] => []
  | c :: rest =>
    (if c ∈ specialChars then ['\\', c] else [c]) ++ escapeRegex rest

/-- Step 2 of `matchPattern`: `.replace(/\\\*/g, ".*")`, turning each
escaped `*` into the regex `.*`. -/
def replaceStarEsc : List Char → List Char
  | '\\' :: '*' :: rest => '.' :: '*' :: replaceStarEsc rest
  | c :: rest => c :: replaceStarEsc rest
  | [] => []

/-- The replacement text `([^/]+)` substituted for `{param}` placeholders. -/
def segReplacement : List Char := ['(', '[', '^', '/', ']', '+', ')']

/-- Step 3 of `matchPattern`: `.replace(/\\\{([^\\}]+)\\\}/g, "([^/]+)")`.
A match needs an escaped `{`, a nonempty run of characters other than
backslash and `}` (necessarily maximal, since a shorter run would have to
be followed by a backslash that the run itself excludes), and an escaped
`}`; unmatched positions are copied and scanning resumes one character
later, exactly as the global regex replace does.  The `fuel` argument,
initialized to the input length, only makes the recursion structural:
every step consumes at least one character, so fuel bounds the input
length throughout and the `0` case is never hit. -/
def replaceParamAux : Nat → List Char → List Char
  | 0, l => l
  | _ + 1, [] => []
  | fuel + 1, '\\' :: '\x7b' :: rest =>
    let content := rest.takeWhile (fun c => c ≠ '\\' && c ≠ '\x7d')
    match rest.drop content.length with
    | '\\' :: '\x7d' :: rest' =>
      if content.isEmpty then '\\' :: replaceParamAux fuel ('\x7b' :: rest)
      else segReplacement ++ replaceParamAux fuel rest'
    | _ => '\\' :: replaceParamAux fuel ('\x7b' :: rest)
  | fuel + 1, c :: rest => c :: replaceParamAux fuel rest

def replaceParam (l : List Char) : List Char :=
  replaceParamAux l.length l

/-- Tokens of the regex language that the three rewriting steps can
produce: escaped or plain literals, `.*`, and the segment group `([^/]+)`. -/
inductive RTok where
  | lit (c : Char)
  | star
  | seg
deriving DecidableEq

/-- Lex the produced regex source into tokens.  A backslash escapes the
next character; `.` only ever occurs as `.*`; `(` only ever starts the
seven-character group `([^/]+)`; everything else is a literal. -/
def lexRegex : List Char → List RTok
  | [] => []
  | '\\' :: c :: rest => RTok.lit c :: lexRegex rest
  | ['\\'] => [RTok.lit '\\']
  | '.' :: '*' :: rest => RTok.star :: lexRegex rest
  | '(' :: '[' :: '^' :: '/' :: ']' :: '+' :: ')' :: rest => RTok.seg :: lexRegex rest
  | c :: rest => RTok.lit c :: lexRegex rest

/-- Splits for the segment group `([^/]+)`: consume one or more leading
characters, none of which is `/`, and test the continuation `p` on the
remainder. -/
def segSplits (p : List Char → Bool) : List Char → Bool
  | [] => false
  | r :: rs => r ≠ '/' && (p rs || segSplits p rs)

/-- Anchored matcher for the token language.  `star` (`.*`) matches when
the continuation matches some suffix of the input; `seg` (`([^/]+)`)
matches when the continuation matches after one or more non-`/`
characters. -/
def rmatch : List RTok → List Char → Bool
  | [], rs => rs.isEmpty
  | RTok.lit c :: ts, rs =>
    match rs with
    | [] => false
    | r :: rs' => c == r && rmatch ts rs'
  | RTok.star :: ts, rs => rs.tails.any (fun suf => rmatch ts suf)
  | RTok.seg :: ts, rs => segSplits (fun suf => rmatch ts suf) rs

/-- `AccessControl.matchPattern`: compile the pattern through the three
rewriting steps and test the resource against the anchored regex. -/
def matchPattern (pattern resource : String) : Bool :=
  rmatch (lexRegex (replaceParam (replaceStarEsc (escapeRegex pattern.toList))))
    resource.toList

/-- The filter predicate of `AccessControl.checkAccess`: the rule is for
this client, its pattern matches the resource, and its actions include the
action (literally — the source has no wildcard-action handling). -/
def structMatches (clientId resource action : String) (r : AccessRule) : Bool :=
  r.clientId == clientId && matchPattern r.resource resource &&
    r.actions.contains action

/-- Per-field condition test of `checkAccess`:
`!context[field] || context[field] !== value` fails the rule, so each
field needs a truthy, strictly-equal context value. -/
def fieldsSatisfied (ctx : JFields) : JFields → Bool
  | JFields.nil => true
  | JFields.fcons k v rest =>
    (match fieldGet k ctx with
     | none => false
     | some w => truthy w && jsStrictEq w v) && fieldsSatisfied ctx rest

/-- Whether one matching rule grants the request in the `checkAccess`
loop: no `conditions` grants unconditionally; a `conditions` object grants
only through a `fields` map all of whose entries are satisfied. -/
def ruleGrants (ctx : JFields) (r : AccessRule) : Bool :=
  match r.conditions with
  | none => true
  | some conds =>
    match conds.fields with
    | some flds => fieldsSatisfied ctx flds
    | none => false

/-- `AccessControl.checkAccess`: filter the rules, return the configured
default when none matches structurally, otherwise grant iff some matching
rule grants. -/
def checkAccess (defaultDeny : Bool) (rules : List AccessRule)
    (clientId resource action : String) (ctx : JFields) : Bool :=
  let matching := rules.filter (structMatches clientId resource action)
  if matching.isEmpty then !defaultDeny
  else matching.any (ruleGrants ctx)

/-- Replace the first rule with the same `(clientId, resource)` key. -/
def setRuleFirst (rule : AccessRule) : List AccessRule → List AccessRule
  | [] => []
  | r :: rest =>
    if r.clientId == rule.clientId && r.resource == rule.resource then
      rule :: rest
    else
      r :: setRuleFirst rule rest

/-- `AccessControl.addRule`: validate the rule, then replace the existing
rule with the same `(clientId, resource)` key or append. -/
def addRule (rule : AccessRule) (rules : List AccessRule) :
    Except String (List AccessRule) :=
  if rule.clientId == "" || rule.resource == "" || rule.actions.isEmpty then
    Except.error "Invalid access rule: clientId, resource, and actions are required"
  else if rules.any (fun r => r.clientId == rule.clientId && r.resource == rule.resource) then
    Except.ok (setRuleFirst rule rules)
  else
    Except.ok (rules ++ [rule])

mutual

/-- Structural (mathematical) equality of JSON values. -/
def jvalBEq : JVal → JVal → Bool
  | JVal.str a, JVal.str b => a == b
  | JVal.num a, JVal.num b => a == b
  | JVal.boolean a, JVal.boolean b => a == b
  | JVal.null, JVal.null => true
  | JVal.obj a, JVal.obj b => jfieldsBEq a b
  | JVal.arr a, JVal.arr b => jelemsBEq a b
  | _, _ => false

/-- Structural equality of JSON object entry lists. -/
def jfieldsBEq : JFields → JFields → Bool
  | JFields.nil, JFields.nil => true
  | JFields.fcons k v r, JFields.fcons k' v' r' =>
    k == k' && jvalBEq v v' && jfieldsBEq r r'
  | _, _ => false

/-- Structural equality of JSON array element lists. -/
def jelemsBEq : JElems → JElems → Bool
  | JElems.enil, JElems.enil => true
  | JElems.econs v r, JElems.econs v' r' => jvalBEq v v' && jelemsBEq r r'
  | _, _ => false

end

/-- Plain field-equality satisfaction used by the claim wording. -/
def specFieldsEqClaim (ctx : JFields) : JFields → Bool
  | JFields.nil => true
  | JFields.fcons k v rest =>
    (match fieldGet k ctx with
     | none => false
     | some w => jvalBEq w v) && specFieldsEqClaim ctx rest

/-- Modelled from the claim wording (for comparison with `checkAccess`):
a rule matches when its actions contain the action "or a wildcard action",
and field-equality conditions are "satisfied" by plain equality of the
context value, a rule with no field conditions granting vacuously. -/
def specRuleGrantsClaim (ctx : JFields) (r : AccessRule) : Bool :=
  match r.conditions with
  | none => true
  | some conds =>
    match conds.fields with
    | none => true
    | some flds => specFieldsEqClaim ctx flds

/-- Modelled from the claim wording of C3: `checkAccess` should return
`true` exactly when some stored rule for the client has a matching
resource pattern, an actions set containing the action or a wildcard
action, and either no conditions or all field-equality conditions
satisfied by the context. -/
def specCheckAccessClaim (rules : List AccessRule)
    (clientId resource action : String) (ctx : JFields) : Bool :=
  rules.any (fun r =>
    r.clientId == clientId && matchPattern r.resource resource &&
      (r.actions.contains action || r.actions.contains "*") &&
      specRuleGrantsClaim ctx r)

/-! ## Rate limiter (src/lib/security/rateLimiter.ts) -/

/-- `RateLimitConfig`. -/
structure RateLimitConfig where
  requestsPerMinute : Rat
  burstCapacity : Rat
deriving DecidableEq

/-- `ClientRateLimit`: per-operation configs plus the client's global
(`"*"`) config. -/
structure ClientRateLimit where
  clientId : String
  operations : List (String × RateLimitConfig)
  global : RateLimitConfig
deriving DecidableEq

/-- `TokenBucket`. -/
structure TokenBucket where
  tokens : Rat
  lastRefill : Int
  capacity : Rat
  refillRate : Rat
deriving DecidableEq

/-- Mutable state of `RateLimiter`. -/
structure RLState where
  clientLimits : List (String × ClientRateLimit)
  buckets : List (String × TokenBucket)
deriving DecidableEq

/-- `DEFAULT_OPTIONS.defaultLimits`: 60 requests/minute, burst 10. -/
def defaultLimits : RateLimitConfig := { requestsPerMinute := 60, burstCapacity := 10 }

/-- `RateLimiter.getRateLimitConfig`: operation-specific config, else the
client's global config, else the system default. -/
def getRateLimitConfig (st : RLState) (clientId operation : String) : RateLimitConfig :=
  match mapGet clientId st.clientLimits with
  | none => defaultLimits
  | some cl =>
    match mapGet operation cl.operations with
    | some c => c
    | none => cl.global

/-- `RateLimiter.getBucket`: return the bucket for
`clientId ++ ":" ++ operation`, lazily creating it full
(`tokens = capacity = burstCapacity`) with
`refillRate = requestsPerMinute / 60000` tokens per millisecond. -/
def getBucket (st : RLState) (clientId operation : String) (now : Int) :
    TokenBucket × RLState :=
  let key := clientId ++ ":" ++ operation
  match mapGet key st.buckets with
  | some b => (b, st)
  | none =>
    let cfg := getRateLimitConfig st clientId operation
    let b : TokenBucket :=
      { tokens := cfg.burstCapacity
        lastRefill := now
        capacity := cfg.burstCapacity
        refillRate := cfg.requestsPerMinute / 60000 }
    (b, { st with buckets := mapSet key b st.buckets })

/-- `RateLimiter.refillBucket`: add `elapsed * refillRate` tokens, capped
at capacity, when time has elapsed. -/
def refillBucket (b : TokenBucket) (now : Int) : TokenBucket :=
  let timeElapsed : Int := now - b.lastRefill
  if timeElapsed > 0 then
    { b with
      tokens := min b.capacity (b.tokens + (timeElapsed : Rat) * b.refillRate)
      lastRefill := now }
  else
    b

/-- `RateLimiter.checkLimit`: get and refill the bucket, admit and consume
one token when at least one token is available.  The refilled bucket is
stored back even on rejection (the source mutates the bucket in place). -/
def checkLimit (st : RLState) (clientId operation : String) (now : Int) :
    Bool × RLState :=
  let key := clientId ++ ":" ++ operation
  let (b0, st1) := getBucket st clientId operation now
  let b := refillBucket b0 now
  if b.tokens ≥ 1 then
    (true, { st1 with buckets := mapSet key { b with tokens := b.tokens - 1 } st1.buckets })
  else
    (false, { st1 with buckets := mapSet key b st1.buckets })

/-- `RateLimiter.getWaitTime`: 0 when a token is available, otherwise
`Math.ceil((1 - tokens) / refillRate / 1000)` seconds.  (State can change
only through the lazy bucket creation in `getBucket`.) -/
def getWaitTime (st : RLState) (clientId operation : String) (now : Int) :
    Int × RLState :=
  let (b, st1) := getBucket st clientId operation now
  if b.tokens ≥ 1 then
    (0, st1)
  else
    (⌈(1 - b.tokens) / b.refillRate / 1000⌉, st1)

/-- One observable rate-limiter request, used to form arbitrary
interleavings of `checkLimit` and `getWaitTime` calls (each of which
internally performs the `getBucket`/`refillBucket` steps). -/
inductive RLOp where
  | check (clientId operation : String) (now : Int)
  | wait (clientId operation : String) (now : Int)

/-- Apply one operation to the limiter state. -/
def rlStep (st : RLState) : RLOp → RLState
  | RLOp.check c o n => (checkLimit st c o n).2
  | RLOp.wait c o n => (getWaitTime st c o n).2

/-- Run a sequence of operations. -/
def rlRun (st : RLState) (ops : List RLOp) : RLState :=
  ops.foldl rlStep st

/-! ## Audit logger (src/lib/security/auditLogger.ts) -/

/-- Character-list prefix test. -/
def isPrefixChars : List Char → List Char → Bool
  | [], _ => true
  | _ :: _, [] => false
  | a :: as, b :: bs => a == b && isPrefixChars as bs

/-- JS `String.prototype.includes`: substring containment. -/
def containsSub (needle : List Char) : List Char → Bool
  | [] => isPrefixChars needle []
  | c :: rest => isPrefixChars needle (c :: rest) || containsSub needle rest

/-- JS `String.prototype.startsWith`. -/
def strStartsWith (s pre : String) : Bool :=
  isPrefixChars pre.toList s.toList

/-- JS `String.prototype.endsWith`. -/
def strEndsWith (s suf : String) : Bool :=
  isPrefixChars suf.toList.reverse s.toList.reverse

/-- Character-wise lower-casing of a string (ASCII, as in
`String.prototype.toLowerCase` for the configured field names). -/
def lowerChars (s : String) : List Char :=
  s.toList.map Char.toLower

/-- The sensitive-field test of `sanitizeObject`:
`key.toLowerCase().includes(field.toLowerCase())` for some configured
field. -/
def isSensitiveKey (sensitiveFields : List String) (key : String) : Bool :=
  sensitiveFields.any (fun f => containsSub (lowerChars f) (lowerChars key))

/-- `DEFAULT_OPTIONS.sensitiveFields`. -/
def defaultSensitiveFields : List String :=
  ["password", "token", "apiKey", "secret", "credential"]

/-- Redaction applied to the value of a sensitive key: strings become
`"[REDACTED]"`, everything else `"[REDACTED OBJECT]"`. -/
def redactValue : JVal → JVal
  | JVal.str _ => JVal.str "[REDACTED]"
  | _ => JVal.str "[REDACTED OBJECT]"

/-- `typeof value === "object" && value !== null` (objects and arrays). -/
def isObjLike : JVal → Bool
  | JVal.obj _ => true
  | JVal.arr _ => true
  | _ => false

mutual

/-- `AuditLogger.sanitizeObject`: primitives pass through; in objects and
arrays each entry is redacted when its key (the index string, for arrays)
matches the sensitive-field list, recursively sanitized when it is an
object, and copied otherwise. -/
def sanitizeObject (sf : List String) : JVal → JVal
  | JVal.obj fs => JVal.obj (sanitizeFields sf fs)
  | JVal.arr es => JVal.arr (sanitizeElems sf 0 es)
  | v => v

/-- Entry-wise sanitization of an object's fields. -/
def sanitizeFields (sf : List String) : JFields → JFields
  | JFields.nil => JFields.nil
  | JFields.fcons k v rest =>
    JFields.fcons k
      (if isSensitiveKey sf k then redactValue v
       else if isObjLike v then sanitizeObject sf v
       else v)
      (sanitizeFields sf rest)

/-- Entry-wise sanitization of an array's elements (`Object.entries` keys
of an array are the index strings). -/
def sanitizeElems (sf : List String) (i : Nat) : JElems → JElems
  | JElems.enil => JElems.enil
  | JElems.econs v rest =>
    JElems.econs
      (if isSensitiveKey sf (toString i) then redactValue v
       else if isObjLike v then sanitizeObject sf v
       else v)
      (sanitizeElems sf (i + 1) rest)

end

/-- The slice of `AuditLoggerOptions` the logging logic reads. -/
structure AuditLoggerOptions where
  sensitiveFields : List String
  maxLogFileSizeMB : Rat
  compress : Bool

/-- Mutable state of `AuditLogger`: the log directory (file name to the
entries serialized into it, in write order), the active file name, the
size-check counter, the in-memory queue and the stderr diagnostics. -/
structure LoggerState where
  files : List (String × List JVal)
  currentLogFile : String
  logCount : Nat
  logQueue : List JVal
  diagnostics : List String

/-- Append one serialized entry as a line of the named file (append mode:
the file is created at the end of the directory when absent). -/
def appendLine (name : String) (v : JVal) (files : List (String × List JVal)) :
    List (String × List JVal) :=
  match mapGet name files with
  | some lines => mapSet name (lines ++ [v]) files
  | none => files ++ [(name, [v])]

/-- `AuditLogger.rotateLog`: point the logger at a fresh file and reset the
size-check counter.  The file name is
`audit-<YYYY-MM-DD>-<HH|00>.log`, computed from the clock; the model takes
the computed name as an argument. -/
def rotateLog (filename : String) (st : LoggerState) : LoggerState :=
  { st with currentLogFile := filename, logCount := 0 }

/-- `AuditLogger.compressLogFile`: gzip the file and delete the original,
i.e. rename it with a `.gz` suffix (no-op when the file does not exist,
as the stream errors are swallowed). -/
def compressFile (name : String) (files : List (String × List JVal)) :
    List (String × List JVal) :=
  match mapGet name files with
  | some lines => mapSet (name ++ ".gz") lines (mapDel name files)
  | none => files

/-- The unconditional effects of one `writeLog`: append the sanitized
entry as a line of the current file and bump the size-check counter. -/
def writeStep (opts : AuditLoggerOptions) (entry : JVal) (st : LoggerState) :
    LoggerState :=
  { st with
    files := appendLine st.currentLogFile
      (sanitizeObject opts.sensitiveFields entry) st.files
    logCount := st.logCount + 1 }

/-- The size check `writeLog` performs every 1000 writes: `sizeMB` is the
`statSync` result (`none` when it throws — that error is ignored); at or
above the threshold the log rotates early, and the source then compresses
`this.currentLogFile` — the new, freshly created file. -/
def sizeCheck (opts : AuditLoggerOptions) (sizeMB : Option Rat)
    (rotName : String) (st1 : LoggerState) : LoggerState :=
  match sizeMB with
  | none => st1
  | some size =>
    if size ≥ opts.maxLogFileSizeMB then
      let str := rotateLog rotName st1
      if opts.compress then
        { str with files := compressFile str.currentLogFile str.files }
      else str
    else st1

/-- The body of `AuditLogger.writeLog` (its `try` block): sanitize, append
the line, bump the counter, and once the counter exceeds 1000 run the size
check and reset the counter; `fsFailure` stands for a synchronous stream
error thrown by the file-system write. -/
def writeLogTry (opts : AuditLoggerOptions) :
    Option String → Option Rat → String → JVal → LoggerState →
    Except String LoggerState
  | some msg, _, _, _, _ => Except.error msg
  | none, sizeMB, rotName, entry, st =>
    if st.logCount + 1 > 1000 then
      Except.ok { sizeCheck opts sizeMB rotName (writeStep opts entry st) with
        logCount := 0 }
    else
      Except.ok (writeStep opts entry st)

/-- `AuditLogger.writeLog`: the `try` block with its `catch`, which logs
the failure to stderr diagnostics and swallows it. -/
def writeLog (opts : AuditLoggerOptions) (fsFailure : Option String)
    (sizeMB : Option Rat) (rotName : String) (entry : JVal)
    (st : LoggerState) : LoggerState :=
  match writeLogTry opts fsFailure sizeMB rotName entry st with
  | Except.ok st' => st'
  | Except.error msg =>
    { st with diagnostics := st.diagnostics ++ ["Failed to write log: " ++ msg] }

/-- `AuditLogger.processLogQueue`: drain the queue through `writeLog`,
one entry at a time (batching only affects scheduling).  `fsFailures`
resolves the file-system outcome of each successive write. -/
def drainQueue (opts : AuditLoggerOptions) (fsFailures : List (Option String)) :
    List JVal → LoggerState → LoggerState
  | [], st => st
  | e :: rest, st =>
    drainQueue opts (fsFailures.drop 1) rest
      (writeLog opts (fsFailures.headD none) none "" e st)

/-- `AuditLogger.log`: enqueue the (already completed) entry and process
the queue.  (Id and timestamp generation and the defaulting of missing
fields read the clock and the RNG and are performed by the caller in the
model.) -/
def logOp (opts : AuditLoggerOptions) (fsFailures : List (Option String))
    (entry : JVal) (st : LoggerState) : LoggerState :=
  let queued := st.logQueue ++ [entry]
  drainQueue opts fsFailures queued { st with logQueue := [] }

/-- Criteria test of `queryLogs`: every criteria entry must be strictly
equal to the corresponding property of the parsed log line. -/
def matchesCriteria (log : JVal) : JFields → Bool
  | JFields.nil => true
  | JFields.fcons k v rest =>
    (match jvalGet k log with
     | some w => jsStrictEq w v
     | none => false) && matchesCriteria log rest

/-- Inner loop of `queryLogs` over the lines of one file: count matches,
skip `offset` of them, collect until `limit` results are gathered. -/
def scanLines (criteria : JFields) (limit offset : Nat) :
    List JVal → Nat → List JVal → List JVal × Nat
  | [], count, results => (results, count)
  | line :: rest, count, results =>
    if matchesCriteria line criteria then
      let count' := count + 1
      if count' > offset then
        let results' := results ++ [line]
        if results'.length ≥ limit then (results', count')
        else scanLines criteria limit offset rest count' results'
      else scanLines criteria limit offset rest count' results
    else scanLines criteria limit offset rest count results

/-- Outer loop of `queryLogs` over the sorted file names (break once the
limit is reached before opening the next file). -/
def scanFiles (criteria : JFields) (limit offset : Nat)
    (files : List (String × List JVal)) :
    List String → Nat → List JVal → List JVal × Nat
  | [], count, results => (results, count)
  | name :: rest, count, results =>
    if results.length ≥ limit then (results, count)
    else
      let lines := (mapGet name files).getD []
      let (results', count') := scanLines criteria limit offset lines count results
      scanFiles criteria limit offset files rest count' results'

/-- Lexicographic code-point comparison of character lists (the order JS
`Array.prototype.sort` uses on strings). -/
def listCharLt : List Char → List Char → Bool
  | [], [] => false
  | [], _ :: _ => true
  | _ :: _, [] => false
  | a :: as, b :: bs => a.toNat < b.toNat || (a == b && listCharLt as bs)

/-- Lexicographic comparison of strings. -/
def strLt (a b : String) : Bool :=
  listCharLt a.toList b.toList

/-- Descending insertion: place the string before the first smaller one. -/
def insertDesc (x : String) : List String → List String
  | [] => [x]
  | y :: rest => if strLt y x then x :: y :: rest else y :: insertDesc x rest

/-- `files.sort().reverse()` of `queryLogs` on (distinct) file names:
sort descending. -/
def sortDesc : List String → List String
  | [] => []
  | x :: rest => insertDesc x (sortDesc rest)

/-- `AuditLogger.queryLogs`: list the `audit-*.log[.gz]` files, newest
(largest) name first, and scan them; decompression and JSON parsing are
transparent in the model since files hold parsed entries. -/
def queryLogs (files : List (String × List JVal)) (criteria : JFields)
    (limit offset : Nat) : List JVal :=
  let names := sortDesc ((files.map Prod.fst).filter (fun f =>
    strStartsWith f "audit-" && (strEndsWith f ".log" || strEndsWith f ".log.gz")))
  (scanFiles criteria limit offset files names 0 []).1

mutual

/-- Decidable check that a value is fully redacted: every field (or array
entry) whose key matches the sensitive list carries a redaction marker,
and every other object-like entry is redacted recursively. -/
def redactedOk (sf : List String) : JVal → Bool
  | JVal.obj fs => redactedOkFields sf fs
  | JVal.arr es => redactedOkElems sf 0 es
  | _ => true

/-- Field-wise redaction check. -/
def redactedOkFields (sf : List String) : JFields → Bool
  | JFields.nil => true
  | JFields.fcons k v rest =>
    (if isSensitiveKey sf k then
      jvalBEq v (JVal.str "[REDACTED]") || jvalBEq v (JVal.str "[REDACTED OBJECT]")
     else redactedOk sf v) && redactedOkFields sf rest

/-- Element-wise redaction check. -/
def redactedOkElems (sf : List String) : Nat → JElems → Bool
  | _, JElems.enil => true
  | i, JElems.econs v rest =>
    (if isSensitiveKey sf (toString i) then
      jvalBEq v (JVal.str "[REDACTED]") || jvalBEq v (JVal.str "[REDACTED OBJECT]")
     else redactedOk sf v) && redactedOkElems sf (i + 1) rest

end

/-! ## Auxiliary definitions used by the statements below -/

/-- Absence of an active lockout for a key: any recorded failure entry is
both recent enough not to decay and below the threshold of 5.  (Under this
hypothesis `authenticate` proceeds to the credential cases with the
failed-attempt map untouched.) -/
def notLockedOut (st : AuthState) (ipKey : String) (now : Int) : Prop :=
  ∀ a, mapGet ipKey st.failedAttempts = some a →
    now - a.lastAttempt ≤ lockoutWindowMs ∧ a.count < 5

/-- The state after a run of API-key authentication attempts with the
given clientId/key at the given times (the fresh-session id is irrelevant
on failed attempts). -/
def afterAttempts (opts : AuthOptions) (hash genToken : String → String)
    (verifyTok : String → Option String) (ip cid key : String)
    (ts : List Int) (st : AuthState) : AuthState :=
  ts.foldl
    (fun s t =>
      (authenticate opts hash genToken verifyTok t ip (some cid) (some key)
        none none "fid" s).2)
    st

/-- Apply `checkLimit` repeatedly for one client, operation and timestamp,
collecting the admission results in order. -/
def repeatCheck (clientId operation : String) (now : Int) :
    Nat → RLState → List Bool × RLState
  | 0, st => ([], st)
  | n + 1, st =>
    let (b, st') := checkLimit st clientId operation now
    let (bs, st'') := repeatCheck clientId operation now n st'
    (b :: bs, st'')

/-- Well-formedness of a rate-limit config: nonnegative rate and burst. -/
def ConfigWF (c : RateLimitConfig) : Prop :=
  0 ≤ c.requestsPerMinute ∧ 0 ≤ c.burstCapacity

/-- Well-formedness of every configured limit in the store. -/
def LimitsWF (m : List (String × ClientRateLimit)) : Prop :=
  ∀ k cl, mapGet k m = some cl →
    ConfigWF cl.global ∧ ∀ op cfg, mapGet op cl.operations = some cfg → ConfigWF cfg

/-- The bucket invariant: tokens within `[0, capacity]` and a nonnegative
refill rate (the latter is needed to make the invariant inductive). -/
def BucketWF (b : TokenBucket) : Prop :=
  0 ≤ b.tokens ∧ b.tokens ≤ b.capacity ∧ 0 ≤ b.refillRate

/-- Every stored bucket satisfies the invariant. -/
def BucketsWF (m : List (String × TokenBucket)) : Prop :=
  ∀ k b, mapGet k m = some b → BucketWF b

/-- The bucket `getBucket` creates on first use of a (client, operation)
pair. -/
def freshBucket (st : RLState) (c o : String) (now : Int) : TokenBucket :=
  { tokens := (getRateLimitConfig st c o).burstCapacity
    lastRefill := now
    capacity := (getRateLimitConfig st c o).burstCapacity
    refillRate := (getRateLimitConfig st c o).requestsPerMinute / 60000 }

/-- Newest-first order of a list of audit entries: each entry's
`timestamp` string is at least the next one's (ISO timestamps compare
chronologically as strings). -/
def timestampsDescending : List JVal → Bool
  | [] => true
  | [_] => true
  | a :: b :: rest =>
    (match jvalGet "timestamp" a, jvalGet "timestamp" b with
     | some (JVal.str ta), some (JVal.str tb) => !(strLt ta tb)
     | _, _ => false) && timestampsDescending (b :: rest)

/-- Write a batch of entries through `writeLog` with no file-system
failures (sizes are not consulted below the 1000-write threshold). -/
def writeAll (opts : AuditLoggerOptions) (entries : List JVal)
    (st : LoggerState) : LoggerState :=
  entries.foldl (fun s e => writeLog opts none none "" e s) st

/-- Number of stored rules carrying a given `(clientId, resource)` key. -/
def countRulesFor (rules : List AccessRule) (clientId resource : String) : Nat :=
  (rules.filter (fun r => r.clientId == clientId && r.resource == resource)).length

/-- An empty audit-logger state. -/
def emptyLogger : LoggerState :=
  { files := [], currentLogFile := "", logCount := 0, logQueue := [], diagnostics := [] }

/-- A small audit entry used in concrete scenarios: a timestamp, a client
id, and a metadata object holding an `apiKeyUsed` field (a sensitive key). -/
def sampleEntry (ts cid secret : String) : JVal :=
  JVal.obj (JFields.fcons "timestamp" (JVal.str ts)
    (JFields.fcons "clientId" (JVal.str cid)
      (JFields.fcons "metadata"
        (JVal.obj (JFields.fcons "apiKeyUsed" (JVal.str secret) JFields.nil))
        JFields.nil)))

/-- Membership of a key/value entry in a JSON object's entry list. -/
def FieldIn (k : String) (v : JVal) : JFields → Prop
  | JFields.nil => False
  | JFields.fcons k' v' rest => (k = k' ∧ v = v') ∨ FieldIn k v rest

/-- A sample hash function standing in for SHA-256 in concrete scenarios. -/
def fxHash : String → String := fun s => s ++ "#h"

/-- A sample token generator standing in for `jwt.sign`. -/
def fxGen : String → String := fun c => "tok-" ++ c

/-- A sample verifier standing in for `jwt.verify` (rejects everything). -/
def fxTok : String → Option String := fun _ => none

/-- Default options (60-minute expiry). -/
def fxOpts : AuthOptions := { tokenExpirationMinutes := 60 }

/-- An active client whose stored hash is that of the secret `"good"`. -/
def fxClientActive : Client :=
  { clientId := "c1", apiKey := fxHash "good", description := ""
    createdAt := 0, updatedAt := 0, status := ClientStatus.active }

/-- The same client, disabled. -/
def fxClientDisabled : Client :=
  { fxClientActive with status := ClientStatus.disabled }

/-- An unexpired session for client `"c1"`. -/
def fxSession : Session :=
  { sessionId := "s1", clientId := "c1", token := "t"
    createdAt := 0, expiresAt := 3600000, lastUsed := 0 }

/-- State with the active client and its session. -/
def fxStateActive : AuthState :=
  { clients := [("c1", fxClientActive)], sessions := [("s1", fxSession)]
    failedAttempts := [] }

/-- State with the disabled client and its (previously issued) session. -/
def fxStateDisabled : AuthState :=
  { clients := [("c1", fxClientDisabled)], sessions := [("s1", fxSession)]
    failedAttempts := [] }

/-- Audit-logger options as configured by default (10 MB size threshold,
compression on, default sensitive fields). -/
def fxLogOpts : AuditLoggerOptions :=
  { sensitiveFields := defaultSensitiveFields, maxLogFileSizeMB := 10
    compress := true }

/-- A concrete audit scenario: two entries written to the first rotation
file, one to the second, with a sensitive `apiKeyUsed` metadata field. -/
def fxLogState : LoggerState :=
  writeLog fxLogOpts none none "" (sampleEntry "2025-01-02T00:00:03" "c" "k")
    (rotateLog "audit-2025-01-02-00.log"
      (writeLog fxLogOpts none none "" (sampleEntry "2025-01-01T00:00:02" "b" "k")
        (writeLog fxLogOpts none none "" (sampleEntry "2025-01-01T00:00:01" "a" "k")
          (rotateLog "audit-2025-01-01-00.log" emptyLogger))))

/-! ## Shared lemmas -/

theorem mapGet_mapSet {β : Type} (k k' : String) (v : β) (m : List (String × β)) :
    mapGet k (mapSet k' v m) = if k' = k then some v else mapGet k m := by
  induction m with
  | nil => simp [mapSet, mapGet]
  | cons kv rest ih =>
    obtain ⟨k₀, v₀⟩ := kv
    simp only [mapSet]
    by_cases h : k₀ = k'
    · subst h
      simp only [if_pos rfl, mapGet]
      by_cases h2 : k₀ = k <;> simp [h2]
    · simp only [if_neg h, mapGet]
      by_cases h2 : k₀ = k
      · have hk : ¬(k' = k) := fun e => h (h2.trans e.symm)
        simp [h2, hk]
      · simp [h2, ih]

theorem mapGet_mapSet_self {β : Type} (k : String) (v : β) (m : List (String × β)) :
    mapGet k (mapSet k v m) = some v := by
  simp [mapGet_mapSet]

theorem ipKeyOf_some (clientIp cid : String) (h : cid ≠ "") :
    ipKeyOf clientIp (some cid) = clientIp ++ ":" ++ cid := by
  simp [ipKeyOf, h]

theorem validateApiKey_eq_false_of_hash_ne (hash : String → String)
    (st : AuthState) (cid key : String) (c : Client)
    (hc : mapGet cid st.clients = some c) (hne : hash key ≠ c.apiKey) :
    validateApiKey hash st cid key = false := by
  simp [validateApiKey, hc, hne]

theorem validateApiKey_eq_false_of_disabled (hash : String → String)
    (st : AuthState) (cid key : String) (c : Client)
    (hc : mapGet cid st.clients = some c) (hd : c.status = ClientStatus.disabled) :
    validateApiKey hash st cid key = false := by
  simp [validateApiKey, hc, hd]

theorem validateApiKey_eq_true (hash : String → String)
    (st : AuthState) (cid key : String) (c : Client)
    (hc : mapGet cid st.clients = some c) (ha : c.status = ClientStatus.active)
    (hk : hash key = c.apiKey) :
    validateApiKey hash st cid key = true := by
  simp [validateApiKey, hc, ha, hk]

theorem authenticate_eq_authCases (opts : AuthOptions) (hash genToken : String → String)
    (verifyTok : String → Option String) (now : Int) (ip : String)
    (clientIdH apiKeyH sessionIdH tokenH : Option String) (freshId : String)
    (st : AuthState) (hnl : notLockedOut st (ipKeyOf ip clientIdH) now) :
    authenticate opts hash genToken verifyTok now ip
        clientIdH apiKeyH sessionIdH tokenH freshId st
      = authCases opts hash genToken verifyTok now (ipKeyOf ip clientIdH)
          clientIdH apiKeyH sessionIdH tokenH freshId st := by
  unfold authenticate
  cases hma : mapGet (ipKeyOf ip clientIdH) st.failedAttempts with
  | none => simp [hma]
  | some a =>
    obtain ⟨hgap, hcount⟩ := hnl a hma
    simp [hma, not_lt.mpr hgap, Nat.not_le.mpr hcount]

theorem authenticate_locked (opts : AuthOptions) (hash genToken : String → String)
    (verifyTok : String → Option String) (now : Int) (ip : String)
    (clientIdH apiKeyH sessionIdH tokenH : Option String) (freshId : String)
    (st : AuthState) (a : FailedAttempts)
    (hma : mapGet (ipKeyOf ip clientIdH) st.failedAttempts = some a)
    (hcount : 5 ≤ a.count) (hgap : now - a.lastAttempt ≤ lockoutWindowMs) :
    authenticate opts hash genToken verifyTok now ip
        clientIdH apiKeyH sessionIdH tokenH freshId st
      = (AuthResult.err lockedMsg, st) := by
  unfold authenticate
  simp [hma, not_lt.mpr hgap, hcount]

theorem authenticate_decay (opts : AuthOptions) (hash genToken : String → String)
    (verifyTok : String → Option String) (now : Int) (ip : String)
    (clientIdH apiKeyH sessionIdH tokenH : Option String) (freshId : String)
    (st : AuthState) (a : FailedAttempts)
    (hma : mapGet (ipKeyOf ip clientIdH) st.failedAttempts = some a)
    (hgap : lockoutWindowMs < now - a.lastAttempt) :
    authenticate opts hash genToken verifyTok now ip
        clientIdH apiKeyH sessionIdH tokenH freshId st
      = authCases opts hash genToken verifyTok now (ipKeyOf ip clientIdH)
          clientIdH apiKeyH sessionIdH tokenH freshId
          { st with failedAttempts := mapDel (ipKeyOf ip clientIdH) st.failedAttempts } := by
  unfold authenticate
  simp [hma, hgap]

theorem authCases_apikey_invalid (opts : AuthOptions) (hash genToken : String → String)
    (verifyTok : String → Option String) (now : Int) (ipKey cid key freshId : String)
    (tokenH : Option String) (st : AuthState)
    (hcid : cid ≠ "") (hkey : key ≠ "")
    (hval : validateApiKey hash st cid key = false) :
    authCases opts hash genToken verifyTok now ipKey
        (some cid) (some key) none tokenH freshId st
      = (AuthResult.err "Invalid API key",
         { st with failedAttempts := recordFailedAttempt now ipKey st.failedAttempts }) := by
  simp [authCases, hTruthy, hcid, hkey, hval]

theorem authCases_apikey_valid (opts : AuthOptions) (hash genToken : String → String)
    (verifyTok : String → Option String) (now : Int) (ipKey cid key freshId : String)
    (tokenH : Option String) (st : AuthState)
    (hcid : cid ≠ "") (hkey : key ≠ "")
    (hval : validateApiKey hash st cid key = true) :
    authCases opts hash genToken verifyTok now ipKey
        (some cid) (some key) none tokenH freshId st
      = (AuthResult.ok cid freshId,
         (createSession opts genToken freshId now cid st).2) := by
  simp [authCases, hTruthy, hcid, hkey, hval, createSession]

theorem authCases_session_ok (opts : AuthOptions) (hash genToken : String → String)
    (verifyTok : String → Option String) (now : Int) (ipKey sid freshId : String)
    (clientIdH apiKeyH tokenH : Option String) (st : AuthState) (s : Session)
    (hsid : sid ≠ "") (hs : mapGet sid st.sessions = some s)
    (hexp : ¬ s.expiresAt < now) :
    authCases opts hash genToken verifyTok now ipKey
        clientIdH apiKeyH (some sid) tokenH freshId st
      = (AuthResult.ok s.clientId sid,
         { st with sessions := mapSet sid { s with lastUsed := now } st.sessions }) := by
  simp [authCases, hTruthy, hsid, hs, hexp]

theorem authCases_session_expired (opts : AuthOptions) (hash genToken : String → String)
    (verifyTok : String → Option String) (now : Int) (ipKey sid freshId : String)
    (clientIdH apiKeyH tokenH : Option String) (st : AuthState) (s : Session)
    (hsid : sid ≠ "") (hs : mapGet sid st.sessions = some s)
    (hexp : s.expiresAt < now) :
    authCases opts hash genToken verifyTok now ipKey
        clientIdH apiKeyH (some sid) tokenH freshId st
      = (AuthResult.err "Session expired",
         { st with
            sessions := mapDel sid st.sessions
            failedAttempts := recordFailedAttempt now ipKey st.failedAttempts }) := by
  simp [authCases, hTruthy, hsid, hs, hexp]

/-! ## Claim C1 -/

/-- C1 counterexample: the claim says a session minted for a client who is
later disabled must be rejected at use-time while unexpired; but on a
state whose client `"c1"` is disabled and whose session `"s1"` (for
`"c1"`) is unexpired at time 1000, `authenticate` presented with the
session identifier succeeds — the client's status is never consulted on
the session path. -/
theorem c1_counterexample :
    (mapGet "c1" fxStateDisabled.clients).map Client.status
        = some ClientStatus.disabled ∧
    (mapGet "s1" fxStateDisabled.sessions).map Session.clientId = some "c1" ∧
    ¬ fxSession.expiresAt < 1000 ∧
    (authenticate fxOpts fxHash fxGen fxTok 1000 "ip" none none (some "s1")
        none "f" fxStateDisabled).1
      = AuthResult.ok "c1" "s1" := by
  refine ⟨by decide, by decide, by decide, ?_⟩
  rfl

/-- C1 (amended): a subsequent `authenticate` call presenting the
identifier of an unexpired session whose referenced client has since been
disabled is *accepted*, not rejected: the disabled status of the client is
not checked at session use-time, and the session keeps authenticating
until its own expiry (absent an active lockout for the source). -/
theorem c1_amended (opts : AuthOptions) (hash genToken : String → String)
    (verifyTok : String → Option String) (now : Int) (ip sid freshId : String)
    (st : AuthState) (s : Session) (c : Client)
    (hsid : sid ≠ "")
    (hs : mapGet sid st.sessions = some s)
    (hexp : ¬ s.expiresAt < now)
    (hc : mapGet s.clientId st.clients = some c)
    (hdis : c.status = ClientStatus.disabled)
    (hnl : notLockedOut st (ipKeyOf ip none) now) :
    (authenticate opts hash genToken verifyTok now ip none none (some sid)
        none freshId st).1
      = AuthResult.ok s.clientId sid := by
  rw [authenticate_eq_authCases opts hash genToken verifyTok now ip
        none none (some sid) none freshId st hnl,
      authCases_session_ok opts hash genToken verifyTok now (ipKeyOf ip none)
        sid freshId none none none st s hsid hs hexp]

/-- C1 witness: the amended theorem applied to the concrete disabled-client
state. -/
theorem c1_amended_witness :
    (authenticate fxOpts fxHash fxGen fxTok 1000 "ip" none none (some "s1")
        none "f" fxStateDisabled).1
      = AuthResult.ok "c1" "s1" :=
  c1_amended fxOpts fxHash fxGen fxTok 1000 "ip" "s1" "f" fxStateDisabled
    fxSession fxClientDisabled (by decide) (by decide) (by decide) (by decide)
    (by decide) (fun a h => by simp [fxStateDisabled, mapGet] at h)

/-! ## Claim C7 -/

theorem disableClient_sessions (cid : String) (st : AuthState) :
    ((disableClient cid st).2).sessions = st.sessions := by
  unfold disableClient
  cases mapGet cid st.clients <;> rfl

theorem disableClient_clients_get (cid : String) (st : AuthState) (c : Client)
    (hc : mapGet cid st.clients = some c) :
    mapGet cid ((disableClient cid st).2).clients
      = some { c with status := ClientStatus.disabled } := by
  simp [disableClient, hc, mapGet_mapSet_self]

/-- C7: disabling a client immediately makes credential authentication
with the client's still-correct secret fail (`"Invalid API key"`), while a
session issued to the client earlier keeps authenticating until its own
expiry: an unexpired session is accepted with the client's id, and an
expired one is rejected as `"Session expired"`. -/
theorem c7_disable_immediate (opts : AuthOptions) (hash genToken : String → String)
    (verifyTok : String → Option String) (ip cid : String)
    (st : AuthState) (c : Client)
    (hc : mapGet cid st.clients = some c) (hcid : cid ≠ "") :
    (∀ (now : Int) (key freshId : String), key ≠ "" → hash key = c.apiKey →
      notLockedOut (disableClient cid st).2 (ipKeyOf ip (some cid)) now →
      (authenticate opts hash genToken verifyTok now ip (some cid) (some key)
          none none freshId (disableClient cid st).2).1
        = AuthResult.err "Invalid API key") ∧
    (∀ (now : Int) (sid freshId : String) (s : Session), sid ≠ "" →
      mapGet sid st.sessions = some s → s.clientId = cid →
      ¬ s.expiresAt < now →
      notLockedOut (disableClient cid st).2 (ipKeyOf ip none) now →
      (authenticate opts hash genToken verifyTok now ip none none (some sid)
          none freshId (disableClient cid st).2).1
        = AuthResult.ok cid sid) ∧
    (∀ (now : Int) (sid freshId : String) (s : Session), sid ≠ "" →
      mapGet sid st.sessions = some s → s.expiresAt < now →
      notLockedOut (disableClient cid st).2 (ipKeyOf ip none) now →
      (authenticate opts hash genToken verifyTok now ip none none (some sid)
          none freshId (disableClient cid st).2).1
        = AuthResult.err "Session expired") := by
  refine ⟨?_, ?_, ?_⟩
  · intro now key freshId hkey _hcorrect hnl
    have hval : validateApiKey hash (disableClient cid st).2 cid key = false :=
      validateApiKey_eq_false_of_disabled hash (disableClient cid st).2 cid key
        { c with status := ClientStatus.disabled }
        (disableClient_clients_get cid st c hc) rfl
    rw [authenticate_eq_authCases opts hash genToken verifyTok now ip
          (some cid) (some key) none none freshId (disableClient cid st).2 hnl,
        authCases_apikey_invalid opts hash genToken verifyTok now
          (ipKeyOf ip (some cid)) cid key freshId none (disableClient cid st).2
          hcid hkey hval]
  · intro now sid freshId s hsid hs hscid hexp hnl
    have hs' : mapGet sid ((disableClient cid st).2).sessions = some s := by
      rw [disableClient_sessions]; exact hs
    rw [authenticate_eq_authCases opts hash genToken verifyTok now ip
          none none (some sid) none freshId (disableClient cid st).2 hnl,
        authCases_session_ok opts hash genToken verifyTok now (ipKeyOf ip none)
          sid freshId none none none (disableClient cid st).2 s hsid hs' hexp,
        hscid]
  · intro now sid freshId s hsid hs hexp hnl
    have hs' : mapGet sid ((disableClient cid st).2).sessions = some s := by
      rw [disableClient_sessions]; exact hs
    rw [authenticate_eq_authCases opts hash genToken verifyTok now ip
          none none (some sid) none freshId (disableClient cid st).2 hnl,
        authCases_session_expired opts hash genToken verifyTok now (ipKeyOf ip none)
          sid freshId none none none (disableClient cid st).2 s hsid hs' hexp]

/-- C7 witness: the theorem applied to the concrete active client `"c1"`
with secret `"good"`, disabled, at times 1000 (unexpired) and 7200000
(past the session's expiry 3600000). -/
theorem c7_witness :
    (authenticate fxOpts fxHash fxGen fxTok 1000 "ip" (some "c1") (some "good")
        none none "f" (disableClient "c1" fxStateActive).2).1
      = AuthResult.err "Invalid API key" ∧
    (authenticate fxOpts fxHash fxGen fxTok 1000 "ip" none none (some "s1")
        none "f" (disableClient "c1" fxStateActive).2).1
      = AuthResult.ok "c1" "s1" ∧
    (authenticate fxOpts fxHash fxGen fxTok 7200000 "ip" none none (some "s1")
        none "f" (disableClient "c1" fxStateActive).2).1
      = AuthResult.err "Session expired" := by
  have h := c7_disable_immediate fxOpts fxHash fxGen fxTok "ip" "c1"
    fxStateActive fxClientActive (by decide) (by decide)
  refine ⟨h.1 1000 "good" "f" (by decide) (by decide) ?_,
          h.2.1 1000 "s1" "f" fxSession (by decide) (by decide) (by decide)
            (by decide) ?_,
          h.2.2 7200000 "s1" "f" fxSession (by decide) (by decide) (by decide) ?_⟩ <;>
    intro a ha <;>
    simp [disableClient, fxStateActive, mapGet] at ha

/-! ## Claim C2 -/

theorem authenticate_apikey_invalid_pair (opts : AuthOptions)
    (hash genToken : String → String) (verifyTok : String → Option String)
    (now : Int) (ip cid key freshId : String) (st : AuthState)
    (hcid : cid ≠ "") (hkey : key ≠ "")
    (hval : validateApiKey hash st cid key = false)
    (hnl : notLockedOut st (ipKeyOf ip (some cid)) now) :
    authenticate opts hash genToken verifyTok now ip (some cid) (some key)
        none none freshId st
      = (AuthResult.err "Invalid API key",
         { st with failedAttempts :=
            recordFailedAttempt now (ipKeyOf ip (some cid)) st.failedAttempts }) := by
  rw [authenticate_eq_authCases opts hash genToken verifyTok now ip
        (some cid) (some key) none none freshId st hnl,
      authCases_apikey_invalid opts hash genToken verifyTok now
        (ipKeyOf ip (some cid)) cid key freshId none st hcid hkey hval]

theorem authCases_ok_preserves_failedAttempts (opts : AuthOptions)
    (hash genToken : String → String) (verifyTok : String → Option String)
    (now : Int) (ipKey : String) (clientIdH apiKeyH sessionIdH tokenH : Option String)
    (freshId : String) (st : AuthState) (r : AuthResult) (st' : AuthState)
    (h : authCases opts hash genToken verifyTok now ipKey
          clientIdH apiKeyH sessionIdH tokenH freshId st = (r, st'))
    (hok : ∀ m, r ≠ AuthResult.err m) :
    st'.failedAttempts = st.failedAttempts := by
  unfold authCases at h
  simp only [createSession] at h
  split at h
  · split at h
    · cases h
      exact absurd rfl (hok _)
    · split at h
      · cases h
        exact absurd rfl (hok _)
      · cases h
        rfl
  · split at h
    · split at h
      · cases h
        rfl
      · cases h
        exact absurd rfl (hok _)
    · split at h
      · split at h
        · cases h
          exact absurd rfl (hok _)
        · cases h
          rfl
      · cases h
        exact absurd rfl (hok _)

theorem authenticate_ok_preserves_failedAttempts (opts : AuthOptions)
    (hash genToken : String → String) (verifyTok : String → Option String)
    (now : Int) (ip : String) (clientIdH apiKeyH sessionIdH tokenH : Option String)
    (freshId : String) (st : AuthState) (r : AuthResult) (st' : AuthState)
    (h : authenticate opts hash genToken verifyTok now ip
          clientIdH apiKeyH sessionIdH tokenH freshId st = (r, st'))
    (hnd : ∀ a, mapGet (ipKeyOf ip clientIdH) st.failedAttempts = some a →
      now - a.lastAttempt ≤ lockoutWindowMs)
    (hok : ∀ m, r ≠ AuthResult.err m) :
    st'.failedAttempts = st.failedAttempts := by
  unfold authenticate at h
  cases hma : mapGet (ipKeyOf ip clientIdH) st.failedAttempts with
  | none =>
    simp only [hma] at h
    exact authCases_ok_preserves_failedAttempts opts hash genToken verifyTok now
      (ipKeyOf ip clientIdH) clientIdH apiKeyH sessionIdH tokenH freshId st r st' h hok
  | some a =>
    simp only [hma] at h
    rw [if_neg (not_lt.mpr (hnd a hma))] at h
    by_cases hcnt : a.count ≥ 5
    · rw [if_pos hcnt] at h
      cases h
      exact absurd rfl (hok _)
    · rw [if_neg hcnt] at h
      exact authCases_ok_preserves_failedAttempts opts hash genToken verifyTok now
        (ipKeyOf ip clientIdH) clientIdH apiKeyH sessionIdH tokenH freshId st r st' h hok

/-- C2: five consecutive failed authentication attempts for the same
source/client key, each within 15 minutes of the previous one, lock the
key: a sixth attempt within 15 minutes of the fifth is rejected as locked
even with the correct secret; once more than 15 minutes pass after the
last attempt, a correct attempt succeeds; and a successful authentication
never resets the failure counter (third conjunct: any non-error
authentication, absent time decay, leaves the failed-attempt map
unchanged). -/
theorem c2_lockout_and_decay (opts : AuthOptions) (hash genToken : String → String)
    (verifyTok : String → Option String) (ip cid badKey goodKey freshId : String)
    (st0 : AuthState) (c : Client) (t1 t2 t3 t4 t5 : Int)
    (hcid : cid ≠ "") (hbad : badKey ≠ "") (hgood : goodKey ≠ "")
    (hc : mapGet cid st0.clients = some c)
    (hact : c.status = ClientStatus.active)
    (hkeyok : hash goodKey = c.apiKey)
    (hkeybad : hash badKey ≠ c.apiKey)
    (hfa : mapGet (ipKeyOf ip (some cid)) st0.failedAttempts = none)
    (g12 : t2 - t1 ≤ lockoutWindowMs) (g23 : t3 - t2 ≤ lockoutWindowMs)
    (g34 : t4 - t3 ≤ lockoutWindowMs) (g45 : t5 - t4 ≤ lockoutWindowMs) :
    (∀ t6 : Int, t6 - t5 ≤ lockoutWindowMs →
      (authenticate opts hash genToken verifyTok t6 ip (some cid) (some goodKey)
          none none freshId
          (afterAttempts opts hash genToken verifyTok ip cid badKey
            [t1, t2, t3, t4, t5] st0)).1
        = AuthResult.err lockedMsg) ∧
    (∀ t6 : Int, lockoutWindowMs < t6 - t5 →
      (authenticate opts hash genToken verifyTok t6 ip (some cid) (some goodKey)
          none none freshId
          (afterAttempts opts hash genToken verifyTok ip cid badKey
            [t1, t2, t3, t4, t5] st0)).1
        = AuthResult.ok cid freshId) ∧
    (∀ (now : Int) (ip' : String) (cidH keyH sidH tokH : Option String)
        (fid : String) (st : AuthState) (r : AuthResult) (st' : AuthState),
      authenticate opts hash genToken verifyTok now ip' cidH keyH sidH tokH fid st
          = (r, st') →
      (∀ a, mapGet (ipKeyOf ip' cidH) st.failedAttempts = some a →
        now - a.lastAttempt ≤ lockoutWindowMs) →
      (∀ m, r ≠ AuthResult.err m) →
      st'.failedAttempts = st.failedAttempts) := by
  set K := ipKeyOf ip (some cid) with hK
  -- the five failed attempts, one at a time
  have hval0 : validateApiKey hash st0 cid badKey = false :=
    validateApiKey_eq_false_of_hash_ne hash st0 cid badKey c hc hkeybad
  have hnl0 : notLockedOut st0 K t1 := by
    intro a ha; rw [hfa] at ha; cases ha
  have h1 := authenticate_apikey_invalid_pair opts hash genToken verifyTok t1 ip
    cid badKey "fid" st0 hcid hbad hval0 hnl0
  rw [show recordFailedAttempt t1 K st0.failedAttempts
        = mapSet K ⟨1, t1⟩ st0.failedAttempts by simp [recordFailedAttempt, hfa]] at h1
  set st1 : AuthState :=
    { st0 with failedAttempts := mapSet K ⟨1, t1⟩ st0.failedAttempts } with hst1
  have hfa1 : mapGet K st1.failedAttempts = some ⟨1, t1⟩ := mapGet_mapSet_self ..
  have hval1 : validateApiKey hash st1 cid badKey = false :=
    validateApiKey_eq_false_of_hash_ne hash st1 cid badKey c hc hkeybad
  have hnl1 : notLockedOut st1 K t2 := by
    intro a ha; rw [hfa1] at ha; cases ha; exact ⟨g12, by norm_num⟩
  have h2 := authenticate_apikey_invalid_pair opts hash genToken verifyTok t2 ip
    cid badKey "fid" st1 hcid hbad hval1 hnl1
  rw [show recordFailedAttempt t2 K st1.failedAttempts
        = mapSet K ⟨2, t2⟩ st1.failedAttempts by simp [recordFailedAttempt, hfa1]] at h2
  set st2 : AuthState :=
    { st1 with failedAttempts := mapSet K ⟨2, t2⟩ st1.failedAttempts } with hst2
  have hfa2 : mapGet K st2.failedAttempts = some ⟨2, t2⟩ := mapGet_mapSet_self ..
  have hval2 : validateApiKey hash st2 cid badKey = false :=
    validateApiKey_eq_false_of_hash_ne hash st2 cid badKey c hc hkeybad
  have hnl2 : notLockedOut st2 K t3 := by
    intro a ha; rw [hfa2] at ha; cases ha; exact ⟨g23, by norm_num⟩
  have h3 := authenticate_apikey_invalid_pair opts hash genToken verifyTok t3 ip
    cid badKey "fid" st2 hcid hbad hval2 hnl2
  rw [show recordFailedAttempt t3 K st2.failedAttempts
        = mapSet K ⟨3, t3⟩ st2.failedAttempts by simp [recordFailedAttempt, hfa2]] at h3
  set st3 : AuthState :=
    { st2 with failedAttempts := mapSet K ⟨3, t3⟩ st2.failedAttempts } with hst3
  have hfa3 : mapGet K st3.failedAttempts = some ⟨3, t3⟩ := mapGet_mapSet_self ..
  have hval3 : validateApiKey hash st3 cid badKey = false :=
    validateApiKey_eq_false_of_hash_ne hash st3 cid badKey c hc hkeybad
  have hnl3 : notLockedOut st3 K t4 := by
    intro a ha; rw [hfa3] at ha; cases ha; exact ⟨g34, by norm_num⟩
  have h4 := authenticate_apikey_invalid_pair opts hash genToken verifyTok t4 ip
    cid badKey "fid" st3 hcid hbad hval3 hnl3
  rw [show recordFailedAttempt t4 K st3.failedAttempts
        = mapSet K ⟨4, t4⟩ st3.failedAttempts by simp [recordFailedAttempt, hfa3]] at h4
  set st4 : AuthState :=
    { st3 with failedAttempts := mapSet K ⟨4, t4⟩ st3.failedAttempts } with hst4
  have hfa4 : mapGet K st4.failedAttempts = some ⟨4, t4⟩ := mapGet_mapSet_self ..
  have hval4 : validateApiKey hash st4 cid badKey = false :=
    validateApiKey_eq_false_of_hash_ne hash st4 cid badKey c hc hkeybad
  have hnl4 : notLockedOut st4 K t5 := by
    intro a ha; rw [hfa4] at ha; cases ha; exact ⟨g45, by norm_num⟩
  have h5 := authenticate_apikey_invalid_pair opts hash genToken verifyTok t5 ip
    cid badKey "fid" st4 hcid hbad hval4 hnl4
  rw [show recordFailedAttempt t5 K st4.failedAttempts
        = mapSet K ⟨5, t5⟩ st4.failedAttempts by simp [recordFailedAttempt, hfa4]] at h5
  set st5 : AuthState :=
    { st4 with failedAttempts := mapSet K ⟨5, t5⟩ st4.failedAttempts } with hst5
  have hfa5 : mapGet K st5.failedAttempts = some ⟨5, t5⟩ := mapGet_mapSet_self ..
  have hrun : afterAttempts opts hash genToken verifyTok ip cid badKey
      [t1, t2, t3, t4, t5] st0 = st5 := by
    simp only [afterAttempts, List.foldl, h1, h2, h3, h4, h5]
  refine ⟨?_, ?_, ?_⟩
  · intro t6 hgap6
    rw [hrun,
        authenticate_locked opts hash genToken verifyTok t6 ip (some cid)
          (some goodKey) none none freshId st5 ⟨5, t5⟩ hfa5 (le_refl 5) hgap6]
  · intro t6 hgap6
    have hdecay := authenticate_decay opts hash genToken verifyTok t6 ip (some cid)
      (some goodKey) none none freshId st5 ⟨5, t5⟩ hfa5 hgap6
    have hval5 : validateApiKey hash
        { st5 with failedAttempts := mapDel K st5.failedAttempts } cid goodKey = true :=
      validateApiKey_eq_true hash _ cid goodKey c hc hact hkeyok
    rw [hrun, hdecay,
        authCases_apikey_valid opts hash genToken verifyTok t6 K cid goodKey
          freshId none _ hcid hgood hval5]
  · intro now ip' cidH keyH sidH tokH fid st r st' hauth hnd hok
    exact authenticate_ok_preserves_failedAttempts opts hash genToken verifyTok
      now ip' cidH keyH sidH tokH fid st r st' hauth hnd hok

/-- C2 witness: five bad-key attempts at times 0..4 lock the key, so the
correct key is rejected at time 5 and accepted at time 900005 (more than
15 minutes after the fifth attempt); and a concrete successful session
authentication leaves the failed-attempt map unchanged. -/
theorem c2_witness :
    (authenticate fxOpts fxHash fxGen fxTok 5 "ip" (some "c1") (some "good")
        none none "f"
        (afterAttempts fxOpts fxHash fxGen fxTok "ip" "c1" "bad" [0, 1, 2, 3, 4]
          fxStateActive)).1
      = AuthResult.err lockedMsg ∧
    (authenticate fxOpts fxHash fxGen fxTok 900005 "ip" (some "c1") (some "good")
        none none "f"
        (afterAttempts fxOpts fxHash fxGen fxTok "ip" "c1" "bad" [0, 1, 2, 3, 4]
          fxStateActive)).1
      = AuthResult.ok "c1" "f" ∧
    ({ fxStateActive with
        sessions := mapSet "s1" { fxSession with lastUsed := 1000 }
          fxStateActive.sessions } : AuthState).failedAttempts
      = fxStateActive.failedAttempts := by
  have h := c2_lockout_and_decay fxOpts fxHash fxGen fxTok "ip" "c1" "bad" "good"
    "f" fxStateActive fxClientActive 0 1 2 3 4
    (by decide) (by decide) (by decide) (by decide) (by decide) (by decide)
    (by decide) (by decide) (by decide) (by decide) (by decide) (by decide)
  refine ⟨h.1 5 (by decide), h.2.1 900005 (by decide),
    h.2.2 1000 "ip" none none (some "s1") none "f" fxStateActive
      (AuthResult.ok "c1" "s1")
      { fxStateActive with
          sessions := mapSet "s1" { fxSession with lastUsed := 1000 }
            fxStateActive.sessions }
      (by decide) (fun a ha => by simp [fxStateActive, mapGet] at ha)
      (fun m hm => AuthResult.noConfusion hm)⟩

/-! ## Claims C3 and C4 -/

theorem fieldsSatisfied_iff (ctx : JFields) : (flds : JFields) →
    (fieldsSatisfied ctx flds = true ↔
      ∀ k v, FieldIn k v flds →
        ∃ w, fieldGet k ctx = some w ∧ truthy w = true ∧ jsStrictEq w v = true)
  | JFields.nil => by simp [fieldsSatisfied, FieldIn]
  | JFields.fcons k' v' rest => by
    have ih := fieldsSatisfied_iff ctx rest
    simp only [fieldsSatisfied, Bool.and_eq_true, ih]
    constructor
    · rintro ⟨h1, h2⟩ k v hin
      rcases hin with ⟨rfl, rfl⟩ | hin
      · revert h1
        cases hw : fieldGet k ctx with
        | none => simp
        | some w =>
          intro h1
          exact ⟨w, rfl, by simpa using h1⟩
      · exact h2 k v hin
    · intro h
      constructor
      · obtain ⟨w, hw, ht, he⟩ := h k' v' (Or.inl ⟨rfl, rfl⟩)
        simp [hw, ht, he]
      · exact fun k v hin => h k v (Or.inr hin)
termination_by flds => sizeOf flds

theorem ruleGrants_iff (ctx : JFields) (r : AccessRule) :
    ruleGrants ctx r = true ↔
      (r.conditions = none ∨
        ∃ conds, r.conditions = some conds ∧
          ∃ flds, conds.fields = some flds ∧ fieldsSatisfied ctx flds = true) := by
  cases hc : r.conditions with
  | none => simp [ruleGrants, hc]
  | some conds =>
    cases hf : conds.fields with
    | none => simp [ruleGrants, hc, hf]
    | some flds => simp [ruleGrants, hc, hf]

theorem structMatches_iff (clientId resource action : String) (r : AccessRule) :
    structMatches clientId resource action r = true ↔
      r.clientId = clientId ∧ matchPattern r.resource resource = true ∧
        action ∈ r.actions := by
  simp [structMatches, and_assoc, List.contains, List.elem_iff]

theorem checkAccess_eq_any (dd : Bool) (rules : List AccessRule)
    (clientId resource action : String) (ctx : JFields)
    (hne : ¬ (rules.filter (structMatches clientId resource action)).isEmpty = true) :
    checkAccess dd rules clientId resource action ctx
      = (rules.filter (structMatches clientId resource action)).any (ruleGrants ctx) := by
  unfold checkAccess
  simp [hne]

/-- C3 counterexample: the claim grants when a rule's actions contain a
wildcard action, but `checkAccess` tests only literal membership of the
action.  With the single rule for `"c1"` on `"doc"` with actions `["*"]`,
the claim's characterization grants a `"read"` request while `checkAccess`
denies it. -/
theorem c3_counterexample :
    checkAccess true
        [{ clientId := "c1", resource := "doc", actions := ["*"],
           conditions := none }]
        "c1" "doc" "read" JFields.nil = false ∧
    specCheckAccessClaim
        [{ clientId := "c1", resource := "doc", actions := ["*"],
           conditions := none }]
        "c1" "doc" "read" JFields.nil = true :=
  ⟨rfl, rfl⟩

/-- C3 (amended): with the deny-by-default configuration, `checkAccess`
returns `true` iff some stored rule has this `clientId`, a resource
pattern matching the resource (anchored, `*` any substring, `{token}` one
path segment), an actions list containing the action literally (wildcard
actions are not recognized), and either no `conditions` object or a
`fields` map each of whose entries is matched by a context value that is
both truthy and strictly equal to the required value (a `conditions`
object without `fields` never grants); and when no rule matches
structurally, the result is the configured default (`false` under deny by
default, `true` otherwise). -/
theorem c3_amended (rules : List AccessRule) (clientId resource action : String)
    (ctx : JFields) :
    (checkAccess true rules clientId resource action ctx = true ↔
      ∃ r ∈ rules, r.clientId = clientId ∧ matchPattern r.resource resource = true ∧
        action ∈ r.actions ∧
        (r.conditions = none ∨
          ∃ conds, r.conditions = some conds ∧
            ∃ flds, conds.fields = some flds ∧
              ∀ k v, FieldIn k v flds →
                ∃ w, fieldGet k ctx = some w ∧ truthy w = true ∧
                  jsStrictEq w v = true)) ∧
    (∀ dd : Bool,
      rules.all (fun r => !structMatches clientId resource action r) = true →
      checkAccess dd rules clientId resource action ctx = !dd) := by
  constructor
  · by_cases hne : (rules.filter (structMatches clientId resource action)).isEmpty = true
    · rw [List.isEmpty_iff] at hne
      unfold checkAccess
      rw [hne]
      simp only [List.isEmpty_nil, if_pos rfl]
      constructor
      · intro h
        cases h
      · rintro ⟨r, hr, hcid, hmp, hact, _⟩
        have : r ∈ rules.filter (structMatches clientId resource action) := by
          rw [List.mem_filter]
          exact ⟨hr, (structMatches_iff clientId resource action r).mpr ⟨hcid, hmp, hact⟩⟩
        rw [hne] at this
        cases this
    · rw [checkAccess_eq_any true rules clientId resource action ctx hne]
      rw [List.any_eq_true]
      constructor
      · rintro ⟨r, hr, hg⟩
        rw [List.mem_filter] at hr
        obtain ⟨hcid, hmp, hact⟩ := (structMatches_iff clientId resource action r).mp hr.2
        refine ⟨r, hr.1, hcid, hmp, hact, ?_⟩
        have := (ruleGrants_iff ctx r).mp hg
        rcases this with h | ⟨conds, hc, flds, hf, hs⟩
        · exact Or.inl h
        · exact Or.inr ⟨conds, hc, flds, hf, (fieldsSatisfied_iff ctx flds).mp hs⟩
      · rintro ⟨r, hr, hcid, hmp, hact, hg⟩
        refine ⟨r, ?_, ?_⟩
        · rw [List.mem_filter]
          exact ⟨hr, (structMatches_iff clientId resource action r).mpr ⟨hcid, hmp, hact⟩⟩
        · rw [ruleGrants_iff]
          rcases hg with h | ⟨conds, hc, flds, hf, hs⟩
          · exact Or.inl h
          · exact Or.inr ⟨conds, hc, flds, hf, (fieldsSatisfied_iff ctx flds).mpr hs⟩
  · intro dd hall
    have hemp : rules.filter (structMatches clientId resource action) = [] := by
      rw [List.filter_eq_nil_iff]
      intro r hr
      have := (List.all_eq_true.mp hall) r hr
      simp only [Bool.not_eq_true'] at this
      simp [this]
    unfold checkAccess
    rw [hemp]
    simp

/-- C3 witness: the amended characterization instantiated on a one-rule
store (grant through the iff) and on an empty store with a permissive
default (result `!defaultDeny`). -/
theorem c3_amended_witness :
    checkAccess true
        [{ clientId := "c1", resource := "store/*", actions := ["read"],
           conditions := none }]
        "c1" "store/x" "read" JFields.nil = true ∧
    checkAccess false [] "c1" "doc" "read" JFields.nil = true := by
  constructor
  · exact (c3_amended
      [{ clientId := "c1", resource := "store/*", actions := ["read"],
         conditions := none }]
      "c1" "store/x" "read" JFields.nil).1.mpr
      ⟨_, List.mem_singleton.mpr rfl, rfl, by decide, by decide, Or.inl rfl⟩
  · exact (c3_amended [] "c1" "doc" "read" JFields.nil).2 false (by decide)

/-! ## Claim C4 -/

/-- C4: under the single rule for `"c1"` on `"store/collection/{name}"`
with action `"read"` and an empty context, access to
`"store/collection/users"` is granted and access to
`"store/collection/users/doc1"` is denied: the `{name}` placeholder
matches exactly one path segment. -/
theorem c4_segment_pattern :
    checkAccess true
        [{ clientId := "c1", resource := "store/collection/{name}",
           actions := ["read"], conditions := none }]
        "c1" "store/collection/users" "read" JFields.nil = true ∧
    checkAccess true
        [{ clientId := "c1", resource := "store/collection/{name}",
           actions := ["read"], conditions := none }]
        "c1" "store/collection/users/doc1" "read" JFields.nil = false :=
  ⟨rfl, rfl⟩

/-! ## Claim C6 -/

theorem listCharLt_irrefl : ∀ l : List Char, listCharLt l l = false
  | [] => rfl
  | a :: as => by simp [listCharLt, listCharLt_irrefl as]

theorem listCharLt_asymm : ∀ a b : List Char,
    listCharLt a b = true → listCharLt b a = false
  | [], [] => by intro h; cases h
  | [], _ :: _ => by intro _; rfl
  | _ :: _, [] => by intro h; cases h
  | a :: as, b :: bs => by
    intro h
    simp only [listCharLt, Bool.or_eq_true, Bool.and_eq_true, decide_eq_true_eq] at h
    rcases h with h | ⟨heq, hrest⟩
    · have h2 : (b == a) = false := by
        by_contra hb
        rw [Bool.not_eq_false] at hb
        have hba := eq_of_beq hb
        subst hba
        omega
      have h3 : ¬ b.toNat < a.toNat := by omega
      simp [listCharLt, h2, h3]
    · have hab : a = b := eq_of_beq heq
      subst hab
      simp [listCharLt, listCharLt_asymm as bs hrest]

theorem strLt_asymm (a b : String) (h : strLt a b = true) : strLt b a = false :=
  listCharLt_asymm a.toList b.toList h

theorem strLt_ne (a b : String) (h : strLt a b = true) : a ≠ b := by
  intro he
  subst he
  rw [show strLt a a = listCharLt a.toList a.toList from rfl,
    listCharLt_irrefl] at h
  cases h

theorem mapSet_mapSet {β : Type} (k : String) (v w : β) (m : List (String × β)) :
    mapSet k v (mapSet k w m) = mapSet k v m := by
  induction m with
  | nil => simp [mapSet]
  | cons kv rest ih =>
    obtain ⟨k₀, v₀⟩ := kv
    by_cases h : k₀ = k <;> simp [mapSet, h, ih]

theorem appendLine_existing (name : String) (v : JVal) (pre : List JVal)
    (files : List (String × List JVal)) (h : mapGet name files = some pre) :
    appendLine name v files = mapSet name (pre ++ [v]) files := by
  simp [appendLine, h]

theorem foldl_appendLine (name : String) :
    ∀ (es : List JVal) (pre : List JVal) (files : List (String × List JVal)),
    mapGet name files = some pre →
    es.foldl (fun fs e => appendLine name e fs) files = mapSet name (pre ++ es) files
  | [], pre, files, h => by
    simp only [List.foldl_nil, List.append_nil]
    induction files with
    | nil => cases h
    | cons kv rest ih =>
      obtain ⟨k₀, v₀⟩ := kv
      by_cases hk : k₀ = name
      · subst hk
        simp only [mapGet, if_pos rfl] at h
        cases h
        simp [mapSet]
      · simp only [mapGet, if_neg hk] at h
        simp only [mapSet, if_neg hk]
        rw [← ih h]
  | e :: es, pre, files, h => by
    simp only [List.foldl_cons]
    rw [appendLine_existing name e pre files h,
        foldl_appendLine name es (pre ++ [e]) _ (mapGet_mapSet_self ..),
        mapSet_mapSet]
    simp

theorem writeLog_basic (opts : AuditLoggerOptions) (e : JVal) (st : LoggerState)
    (h : st.logCount + 1 ≤ 1000) :
    writeLog opts none none "" e st
      = { st with
          files := appendLine st.currentLogFile
            (sanitizeObject opts.sensitiveFields e) st.files
          logCount := st.logCount + 1 } := by
  have hTry : writeLogTry opts none none "" e st
      = Except.ok (writeStep opts e st) := by
    change (if st.logCount + 1 > 1000 then
        Except.ok { sizeCheck opts none "" (writeStep opts e st) with
          logCount := 0 }
      else Except.ok (writeStep opts e st)) = _
    rw [if_neg (show ¬ st.logCount + 1 > 1000 by omega)]
  unfold writeLog
  rw [hTry]
  rfl

theorem writeAll_no_rotation (opts : AuditLoggerOptions) :
    ∀ (es : List JVal) (st : LoggerState), st.logCount + es.length ≤ 1000 →
    writeAll opts es st
      = { st with
          files := es.foldl
            (fun fs e => appendLine st.currentLogFile
              (sanitizeObject opts.sensitiveFields e) fs) st.files
          logCount := st.logCount + es.length }
  | [], st, _ => by simp [writeAll]
  | e :: es, st, h => by
    have h1 : st.logCount + 1 ≤ 1000 := by
      simp only [List.length_cons] at h
      omega
    have hw := writeLog_basic opts e st h1
    have ih := writeAll_no_rotation opts es
      { st with
        files := appendLine st.currentLogFile
          (sanitizeObject opts.sensitiveFields e) st.files
        logCount := st.logCount + 1 }
      (by simp only [List.length_cons] at h; simpa using by omega)
    simp only [writeAll, List.foldl_cons] at ih ⊢
    rw [hw, ih]
    simp only [List.length_cons]
    have harith : st.logCount + 1 + es.length = st.logCount + (es.length + 1) := by
      omega
    rw [harith]

theorem mapGet_append_last {β : Type} (k : String) (v : β) :
    ∀ m : List (String × β), mapGet k m = none →
    mapGet k (m ++ [(k, v)]) = some v
  | [], _ => by simp [mapGet]
  | (k₀, v₀) :: rest, h => by
    by_cases hk : k₀ = k
    · subst hk
      simp [mapGet] at h
    · simp only [mapGet, if_neg hk] at h
      simp only [List.cons_append, mapGet, if_neg hk]
      exact mapGet_append_last k v rest h

theorem mapSet_append_last {β : Type} (k : String) (v w : β) :
    ∀ m : List (String × β), mapGet k m = none →
    mapSet k v (m ++ [(k, w)]) = m ++ [(k, v)]
  | [], _ => by simp [mapSet]
  | (k₀, v₀) :: rest, h => by
    by_cases hk : k₀ = k
    · subst hk
      simp [mapGet] at h
    · simp only [mapGet, if_neg hk] at h
      simp only [List.cons_append, mapSet, if_neg hk, List.append_eq]
      rw [mapSet_append_last k v w rest h]

theorem foldl_appendLine_fresh (name : String) :
    ∀ (es : List JVal), es ≠ [] →
    ∀ files : List (String × List JVal), mapGet name files = none →
    es.foldl (fun fs e => appendLine name e fs) files = files ++ [(name, es)]
  | [], hne, _, _ => absurd rfl hne
  | e :: es, _, files, h => by
    simp only [List.foldl_cons]
    have h1 : appendLine name e files = files ++ [(name, [e])] := by
      simp [appendLine, h]
    rw [h1,
        foldl_appendLine name es [e] (files ++ [(name, [e])])
          (mapGet_append_last name [e] files h),
        mapSet_append_last name ([e] ++ es) [e] files h]
    simp

theorem scanLines_nil_all (limit : Nat) :
    ∀ (lines : List JVal) (count : Nat) (results : List JVal),
    results.length + lines.length ≤ limit →
    scanLines JFields.nil limit 0 lines count results
      = (results ++ lines, count + lines.length)
  | [], count, results, _ => by simp [scanLines]
  | line :: rest, count, results, h => by
    simp only [List.length_cons] at h
    simp only [scanLines, matchesCriteria, if_pos]
    rw [if_pos (by omega : count + 1 > 0)]
    by_cases hl : (results ++ [line]).length ≥ limit
    · rw [if_pos hl]
      have hr : rest = [] := by
        rw [List.length_append, List.length_singleton] at hl
        have : rest.length = 0 := by omega
        exact List.eq_nil_of_length_eq_zero this
      subst hr
      simp
    · rw [if_neg hl]
      rw [List.length_append, List.length_singleton] at hl
      rw [scanLines_nil_all limit rest (count + 1) (results ++ [line])
            (by simp only [List.length_append, List.length_singleton]; omega)]
      have harith : count + 1 + rest.length = count + (rest.length + 1) := by
        omega
      rw [harith]
      simp

theorem redactedOk_prim (sf : List String) :
    ∀ v : JVal, isObjLike v = false → redactedOk sf v = true
  | JVal.str _, _ => rfl
  | JVal.num _, _ => rfl
  | JVal.boolean _, _ => rfl
  | JVal.null, _ => rfl
  | JVal.obj _, h => by cases h
  | JVal.arr _, h => by cases h

theorem redactValue_marker (sf : List String) (v : JVal) :
    (jvalBEq (redactValue v) (JVal.str "[REDACTED]") ||
      jvalBEq (redactValue v) (JVal.str "[REDACTED OBJECT]")) = true := by
  cases v <;> simp [redactValue, jvalBEq]

mutual

theorem redactedOk_sanitize (sf : List String) :
    ∀ v : JVal, redactedOk sf (sanitizeObject sf v) = true
  | JVal.str _ => rfl
  | JVal.num _ => rfl
  | JVal.boolean _ => rfl
  | JVal.null => rfl
  | JVal.obj fs => redactedOkFields_sanitize sf fs
  | JVal.arr es => redactedOkElems_sanitize sf 0 es

theorem redactedOkFields_sanitize (sf : List String) :
    ∀ fs : JFields, redactedOkFields sf (sanitizeFields sf fs) = true
  | JFields.nil => rfl
  | JFields.fcons k v rest => by
    have ih := redactedOkFields_sanitize sf rest
    simp only [sanitizeFields, redactedOkFields]
    by_cases hk : isSensitiveKey sf k = true
    · rw [if_pos hk, if_pos hk, redactValue_marker sf v, ih]
      rfl
    · rw [Bool.not_eq_true] at hk
      rw [if_neg (by simp [hk]), if_neg (by simp [hk]), ih]
      by_cases ho : isObjLike v = true
      · rw [if_pos ho, redactedOk_sanitize sf v]
        rfl
      · rw [Bool.not_eq_true] at ho
        rw [if_neg (by simp [ho]), redactedOk_prim sf v ho]
        rfl

theorem redactedOkElems_sanitize (sf : List String) :
    ∀ (i : Nat) (es : JElems),
      redactedOkElems sf i (sanitizeElems sf i es) = true
  | _, JElems.enil => rfl
  | i, JElems.econs v rest => by
    have ih := redactedOkElems_sanitize sf (i + 1) rest
    simp only [sanitizeElems, redactedOkElems]
    by_cases hk : isSensitiveKey sf (toString i) = true
    · rw [if_pos hk, if_pos hk, redactValue_marker sf v, ih]
      rfl
    · rw [Bool.not_eq_true] at hk
      rw [if_neg (by simp [hk]), if_neg (by simp [hk]), ih]
      by_cases ho : isObjLike v = true
      · rw [if_pos ho, redactedOk_sanitize sf v]
        rfl
      · rw [Bool.not_eq_true] at ho
        rw [if_neg (by simp [ho]), redactedOk_prim sf v ho]
        rfl

end

theorem writeAll_batch (opts : AuditLoggerOptions) (es : List JVal)
    (st : LoggerState) (hne : es ≠ []) (hc : st.logCount = 0)
    (hlen : es.length ≤ 1000)
    (hget : mapGet st.currentLogFile st.files = none) :
    writeAll opts es st
      = { st with
          files := st.files ++
            [(st.currentLogFile, es.map (sanitizeObject opts.sensitiveFields))]
          logCount := es.length } := by
  rw [writeAll_no_rotation opts es st (by omega)]
  have hmap : es.foldl
      (fun fs e => appendLine st.currentLogFile
        (sanitizeObject opts.sensitiveFields e) fs) st.files
      = (es.map (sanitizeObject opts.sensitiveFields)).foldl
          (fun fs e => appendLine st.currentLogFile e fs) st.files := by
    rw [List.foldl_map]
  rw [hmap,
      foldl_appendLine_fresh st.currentLogFile
        (es.map (sanitizeObject opts.sensitiveFields))
        (by simpa using hne) st.files hget]
  rw [hc]
  simp

/-- C6 counterexample: the claim requires the query result to be ordered
newest-first; but after writing three entries across a rotation boundary
(two into the first file, one into the second), the unfiltered query with
limit 3 returns all three entries with the two same-file entries in write
order — oldest first — so the result is not timestamp-descending. -/
theorem c6_counterexample :
    queryLogs fxLogState.files JFields.nil 3 0
      = [sampleEntry "2025-01-02T00:00:03" "c" "[REDACTED]",
         sampleEntry "2025-01-01T00:00:01" "a" "[REDACTED]",
         sampleEntry "2025-01-01T00:00:02" "b" "[REDACTED]"] ∧
    timestampsDescending (queryLogs fxLogState.files JFields.nil 3 0) = false :=
  ⟨rfl, rfl⟩

/-- C6 (amended): writing a nonempty batch `A` to one rotation file and a
nonempty batch `B` to a later one (at most 1000 entries each, the
size-check threshold) and querying with no criteria and
`limit = |A| + |B|` returns all `|A| + |B|` entries: the files are scanned
newest-first, but within each file entries come back in write order
(oldest first within a file), so the result is the sanitized `B` followed
by the sanitized `A`; and every entry of the result has all fields with
sensitive keys replaced by a redaction marker, recursively. -/
theorem c6_amended (opts : AuditLoggerOptions) (A B : List JVal) (f1 f2 : String)
    (hAne : A ≠ []) (hBne : B ≠ [])
    (hA : A.length ≤ 1000) (hB : B.length ≤ 1000)
    (h1s : strStartsWith f1 "audit-" = true) (h1e : strEndsWith f1 ".log" = true)
    (h2s : strStartsWith f2 "audit-" = true) (h2e : strEndsWith f2 ".log" = true)
    (hlt : strLt f1 f2 = true) :
    queryLogs
        (writeAll opts B (rotateLog f2 (writeAll opts A (rotateLog f1 emptyLogger)))).files
        JFields.nil (A.length + B.length) 0
      = B.map (sanitizeObject opts.sensitiveFields)
        ++ A.map (sanitizeObject opts.sensitiveFields) ∧
    ∀ e ∈ queryLogs
        (writeAll opts B (rotateLog f2 (writeAll opts A (rotateLog f1 emptyLogger)))).files
        JFields.nil (A.length + B.length) 0,
      redactedOk opts.sensitiveFields e = true := by
  have hne12 : f1 ≠ f2 := strLt_ne f1 f2 hlt
  set A' := A.map (sanitizeObject opts.sensitiveFields) with hA'
  set B' := B.map (sanitizeObject opts.sensitiveFields) with hB'
  have hAlen : A'.length = A.length := List.length_map ..
  have hBlen : B'.length = B.length := List.length_map ..
  have hstA : writeAll opts A (rotateLog f1 emptyLogger)
      = { files := [(f1, A')], currentLogFile := f1, logCount := A.length
          logQueue := [], diagnostics := [] } := by
    rw [writeAll_batch opts A (rotateLog f1 emptyLogger) hAne rfl hA rfl]
    rfl
  have hstB : writeAll opts B (rotateLog f2 (writeAll opts A (rotateLog f1 emptyLogger)))
      = { files := [(f1, A'), (f2, B')], currentLogFile := f2
          logCount := B.length, logQueue := [], diagnostics := [] } := by
    rw [hstA]
    rw [writeAll_batch opts B _ hBne rfl hB
        (by simp [rotateLog, mapGet, hne12])]
    rfl
  rw [hstB]
  have hnames : ([(f1, A'), (f2, B')].map Prod.fst).filter
      (fun f => strStartsWith f "audit-" &&
        (strEndsWith f ".log" || strEndsWith f ".log.gz"))
      = [f1, f2] := by
    simp [h1s, h1e, h2s, h2e]
  have hsort : sortDesc [f1, f2] = [f2, f1] := by
    simp [sortDesc, insertDesc, strLt_asymm f1 f2 hlt]
  have hq : queryLogs [(f1, A'), (f2, B')] JFields.nil (A.length + B.length) 0
      = B' ++ A' := by
    unfold queryLogs
    rw [hnames, hsort]
    have hg2 : mapGet f2 [(f1, A'), (f2, B')] = some B' := by
      simp [mapGet, hne12]
    have hg1 : mapGet f1 [(f1, A'), (f2, B')] = some A' := by
      simp [mapGet]
    simp only [scanFiles]
    rw [if_neg (show ¬ ([] : List JVal).length ≥ A.length + B.length by
      simp only [List.length_nil]
      have : A.length ≠ 0 := fun h0 => hAne (List.eq_nil_of_length_eq_zero h0)
      omega)]
    rw [hg2]
    simp only [Option.getD_some]
    rw [scanLines_nil_all (A.length + B.length) B' 0 []
        (by simp only [List.length_nil, hBlen]; omega)]
    simp only [List.nil_append, Nat.zero_add, scanFiles]
    rw [if_neg (show ¬ B'.length ≥ A.length + B.length by
      rw [hBlen]
      have : A.length ≠ 0 := fun h0 => hAne (List.eq_nil_of_length_eq_zero h0)
      omega)]
    rw [hg1]
    simp only [Option.getD_some]
    rw [scanLines_nil_all (A.length + B.length) A' B'.length B'
        (by rw [hAlen, hBlen]; omega)]
  refine ⟨hq, ?_⟩
  intro e he
  rw [hq] at he
  rcases List.mem_append.mp he with hm | hm
  · obtain ⟨x, _, rfl⟩ := List.mem_map.mp hm
    exact redactedOk_sanitize opts.sensitiveFields x
  · obtain ⟨x, _, rfl⟩ := List.mem_map.mp hm
    exact redactedOk_sanitize opts.sensitiveFields x

/-- C6 witness: the amended theorem applied to the concrete three-entry
scenario of the counterexample. -/
theorem c6_amended_witness :
    queryLogs
        (writeAll fxLogOpts [sampleEntry "2025-01-02T00:00:03" "c" "k"]
          (rotateLog "audit-2025-01-02-00.log"
            (writeAll fxLogOpts
              [sampleEntry "2025-01-01T00:00:01" "a" "k",
               sampleEntry "2025-01-01T00:00:02" "b" "k"]
              (rotateLog "audit-2025-01-01-00.log" emptyLogger)))).files
        JFields.nil 3 0
      = [sampleEntry "2025-01-02T00:00:03" "c" "[REDACTED]",
         sampleEntry "2025-01-01T00:00:01" "a" "[REDACTED]",
         sampleEntry "2025-01-01T00:00:02" "b" "[REDACTED]"] := by
  exact (c6_amended fxLogOpts
    [sampleEntry "2025-01-01T00:00:01" "a" "k",
     sampleEntry "2025-01-01T00:00:02" "b" "k"]
    [sampleEntry "2025-01-02T00:00:03" "c" "k"]
    "audit-2025-01-01-00.log" "audit-2025-01-02-00.log"
    (List.cons_ne_nil _ _) (List.cons_ne_nil _ _) (by decide) (by decide)
    (by decide) (by decide) (by decide) (by decide) (by decide)).1

/-! ## Claim C5 -/

theorem getWaitTime_eq (st : RLState) (c o : String) (now : Int) :
    (getWaitTime st c o now).1
      = (if (getBucket st c o now).1.tokens ≥ 1 then 0
         else ⌈(1 - (getBucket st c o now).1.tokens)
                / (getBucket st c o now).1.refillRate / 1000⌉) := by
  rcases hg : getBucket st c o now with ⟨b, st1⟩
  simp only [getWaitTime, hg]
  split <;> rfl

/-- C5: on a fresh limiter with the default config (60 requests/minute,
burst 10), ten immediate `checkLimit` calls are all admitted, the eleventh
is rejected, and `getWaitTime` then reports 1 second; and in general
`getWaitTime` returns 0 whenever the bucket holds at least one token, and
otherwise returns `ceil((1 - tokens) / refillRate / 1000)` seconds. -/
theorem c5_rate_and_wait :
    ((repeatCheck "c" "op" 0 11 { clientLimits := [], buckets := [] }).1
      = [true, true, true, true, true, true, true, true, true, true, false] ∧
     (getWaitTime (repeatCheck "c" "op" 0 11 { clientLimits := [], buckets := [] }).2
        "c" "op" 0).1 = 1) ∧
    (∀ (st : RLState) (c o : String) (now : Int),
      ((getBucket st c o now).1.tokens ≥ 1 → (getWaitTime st c o now).1 = 0) ∧
      ((getBucket st c o now).1.tokens < 1 →
        0 < (getBucket st c o now).1.refillRate →
        (getWaitTime st c o now).1
          = ⌈(1 - (getBucket st c o now).1.tokens)
              / (getBucket st c o now).1.refillRate / 1000⌉)) := by
  refine ⟨⟨by with_unfolding_all rfl, by with_unfolding_all rfl⟩, ?_⟩
  intro st c o now
  constructor
  · intro h
    rw [getWaitTime_eq, if_pos h]
  · intro h _hr
    rw [getWaitTime_eq, if_neg (not_le.mpr h)]

/-- C5 witness: the general wait-time clauses applied to a fresh bucket
(ten tokens, wait 0) and to the drained bucket of the concrete scenario
(zero tokens, rate 1/1000 per ms). -/
theorem c5_witness :
    (getWaitTime { clientLimits := [], buckets := [] } "c" "op" 0).1 = 0 ∧
    (getWaitTime (repeatCheck "c" "op" 0 11 { clientLimits := [], buckets := [] }).2
        "c" "op" 0).1
      = ⌈(1 - (getBucket (repeatCheck "c" "op" 0 11
            { clientLimits := [], buckets := [] }).2 "c" "op" 0).1.tokens)
          / (getBucket (repeatCheck "c" "op" 0 11
            { clientLimits := [], buckets := [] }).2 "c" "op" 0).1.refillRate
          / 1000⌉ := by
  constructor
  · exact (c5_rate_and_wait.2 { clientLimits := [], buckets := [] } "c" "op" 0).1
      (by with_unfolding_all decide)
  · exact (c5_rate_and_wait.2 (repeatCheck "c" "op" 0 11
        { clientLimits := [], buckets := [] }).2 "c" "op" 0).2
      (by with_unfolding_all decide) (by with_unfolding_all decide)

/-! ## Claim C10 -/

theorem ConfigWF_default : ConfigWF defaultLimits := by
  constructor <;> norm_num [defaultLimits]

theorem getRateLimitConfig_wf (st : RLState) (c o : String)
    (h : LimitsWF st.clientLimits) : ConfigWF (getRateLimitConfig st c o) := by
  cases hc : mapGet c st.clientLimits with
  | none =>
    have he : getRateLimitConfig st c o = defaultLimits := by
      unfold getRateLimitConfig
      rw [hc]
    rw [he]
    exact ConfigWF_default
  | some cl =>
    obtain ⟨hg, hop⟩ := h c cl hc
    cases ho : mapGet o cl.operations with
    | none =>
      have he : getRateLimitConfig st c o = cl.global := by
        unfold getRateLimitConfig
        rw [hc]
        show (match mapGet o cl.operations with
              | some cfg => cfg
              | none => cl.global) = cl.global
        rw [ho]
      rw [he]
      exact hg
    | some cfg =>
      have he : getRateLimitConfig st c o = cfg := by
        unfold getRateLimitConfig
        rw [hc]
        show (match mapGet o cl.operations with
              | some cfg => cfg
              | none => cl.global) = cfg
        rw [ho]
      rw [he]
      exact hop o cfg ho

theorem getBucket_found (st : RLState) (c o : String) (now : Int)
    (b : TokenBucket) (hg : mapGet (c ++ ":" ++ o) st.buckets = some b) :
    getBucket st c o now = (b, st) := by
  simp only [getBucket, hg]

theorem getBucket_fresh (st : RLState) (c o : String) (now : Int)
    (hg : mapGet (c ++ ":" ++ o) st.buckets = none) :
    getBucket st c o now
      = (freshBucket st c o now,
         { st with
            buckets := mapSet (c ++ ":" ++ o) (freshBucket st c o now) st.buckets }) := by
  simp only [getBucket, hg]
  rfl

theorem BucketsWF_mapSet (m : List (String × TokenBucket)) (key : String)
    (b : TokenBucket) (hm : BucketsWF m) (hb : BucketWF b) :
    BucketsWF (mapSet key b m) := by
  intro k b' hk
  rw [mapGet_mapSet] at hk
  by_cases hkey : key = k
  · rw [if_pos hkey] at hk
    cases hk
    exact hb
  · rw [if_neg hkey] at hk
    exact hm k b' hk

theorem getBucket_wf (st : RLState) (c o : String) (now : Int)
    (hL : LimitsWF st.clientLimits) (hB : BucketsWF st.buckets) :
    BucketWF (getBucket st c o now).1 ∧
    BucketsWF (getBucket st c o now).2.buckets ∧
    (getBucket st c o now).2.clientLimits = st.clientLimits := by
  cases hg : mapGet (c ++ ":" ++ o) st.buckets with
  | some b =>
    rw [getBucket_found st c o now b hg]
    exact ⟨hB _ b hg, hB, rfl⟩
  | none =>
    have hcfg := getRateLimitConfig_wf st c o hL
    have hwf : BucketWF (freshBucket st c o now) := by
      refine ⟨hcfg.2, le_refl _, ?_⟩
      exact div_nonneg hcfg.1 (by norm_num)
    rw [getBucket_fresh st c o now hg]
    exact ⟨hwf, BucketsWF_mapSet st.buckets _ _ hB hwf, rfl⟩

theorem refillBucket_wf (b : TokenBucket) (now : Int) (h : BucketWF b) :
    BucketWF (refillBucket b now) := by
  obtain ⟨h0, hc, hr⟩ := h
  unfold refillBucket
  by_cases he : now - b.lastRefill > 0
  · rw [if_pos he]
    refine ⟨?_, ?_, hr⟩
    · refine le_min ?_ ?_
      · exact le_trans h0 hc
      · have : (0 : Rat) ≤ (now - b.lastRefill : Int) := by
          exact_mod_cast le_of_lt he
        have := mul_nonneg this hr
        linarith
    · exact min_le_left _ _
  · rw [if_neg he]
    exact ⟨h0, hc, hr⟩

theorem checkLimit_wf (st : RLState) (c o : String) (now : Int)
    (hL : LimitsWF st.clientLimits) (hB : BucketsWF st.buckets) :
    BucketsWF (checkLimit st c o now).2.buckets ∧
    (checkLimit st c o now).2.clientLimits = st.clientLimits := by
  obtain ⟨hb, hsb, hcl⟩ := getBucket_wf st c o now hL hB
  rcases hg : getBucket st c o now with ⟨b0, st1⟩
  rw [hg] at hb hsb hcl
  have hrb := refillBucket_wf b0 now hb
  simp only [checkLimit, hg]
  by_cases ht : (refillBucket b0 now).tokens ≥ 1
  · rw [if_pos ht]
    refine ⟨BucketsWF_mapSet st1.buckets _ _ hsb ?_, hcl⟩
    obtain ⟨h1, hc2, hr2⟩ := hrb
    exact ⟨show (0 : Rat) ≤ (refillBucket b0 now).tokens - 1 by linarith,
           show (refillBucket b0 now).tokens - 1 ≤ (refillBucket b0 now).capacity by
             linarith,
           hr2⟩
  · rw [if_neg ht]
    exact ⟨BucketsWF_mapSet st1.buckets _ _ hsb hrb, hcl⟩

theorem getWaitTime_state_wf (st : RLState) (c o : String) (now : Int)
    (hL : LimitsWF st.clientLimits) (hB : BucketsWF st.buckets) :
    BucketsWF (getWaitTime st c o now).2.buckets ∧
    (getWaitTime st c o now).2.clientLimits = st.clientLimits := by
  obtain ⟨_, hsb, hcl⟩ := getBucket_wf st c o now hL hB
  rcases hg : getBucket st c o now with ⟨b0, st1⟩
  rw [hg] at hsb hcl
  simp only [getWaitTime, hg]
  by_cases ht : b0.tokens ≥ 1
  · rw [if_pos ht]
    exact ⟨hsb, hcl⟩
  · rw [if_neg ht]
    exact ⟨hsb, hcl⟩

theorem rlStep_wf (st : RLState) (op : RLOp)
    (hL : LimitsWF st.clientLimits) (hB : BucketsWF st.buckets) :
    BucketsWF (rlStep st op).buckets ∧
    (rlStep st op).clientLimits = st.clientLimits := by
  cases op with
  | check c o n => exact checkLimit_wf st c o n hL hB
  | wait c o n => exact getWaitTime_state_wf st c o n hL hB

theorem rlRun_wf : ∀ (ops : List RLOp) (st : RLState),
    LimitsWF st.clientLimits → BucketsWF st.buckets →
    BucketsWF (rlRun st ops).buckets
  | [], _, _, hB => hB
  | op :: ops, st, hL, hB => by
    obtain ⟨hB', hcl⟩ := rlStep_wf st op hL hB
    have hL' : LimitsWF (rlStep st op).clientLimits := by
      rw [hcl]; exact hL
    exact rlRun_wf ops (rlStep st op) hL' hB'

/-- C10: starting from well-formed limit configuration and well-formed
buckets, after any sequence of `checkLimit` and `getWaitTime` operations
(each internally performing the lazy `getBucket` creation and
`refillBucket`), every stored bucket's token count stays within
`[0, capacity]`; and an admitting `checkLimit` call consumes exactly one
token: the stored bucket is the refilled bucket minus one token. -/
theorem c10_bucket_invariant :
    (∀ (ops : List RLOp) (st0 : RLState),
      LimitsWF st0.clientLimits → BucketsWF st0.buckets →
      ∀ k b, mapGet k (rlRun st0 ops).buckets = some b →
        0 ≤ b.tokens ∧ b.tokens ≤ b.capacity) ∧
    (∀ (st : RLState) (c o : String) (now : Int),
      (checkLimit st c o now).1 = true →
      mapGet (c ++ ":" ++ o) (checkLimit st c o now).2.buckets
        = some { refillBucket (getBucket st c o now).1 now with
            tokens := (refillBucket (getBucket st c o now).1 now).tokens - 1 }) := by
  constructor
  · intro ops st0 hL hB k b hk
    have := rlRun_wf ops st0 hL hB k b hk
    exact ⟨this.1, this.2.1⟩
  · intro st c o now h
    rcases hg : getBucket st c o now with ⟨b0, st1⟩
    simp only [checkLimit, hg] at h ⊢
    by_cases ht : (refillBucket b0 now).tokens ≥ 1
    · rw [if_pos ht] at h ⊢
      rw [mapGet_mapSet_self]
    · rw [if_neg ht] at h
      cases h

/-- C10 witness: the invariant applied to a two-operation run on a fresh
limiter, and the one-token consumption applied to the first admitting
call. -/
theorem c10_witness :
    (∀ k b, mapGet k (rlRun { clientLimits := [], buckets := [] }
        [RLOp.check "c" "op" 0, RLOp.wait "c" "op" 5]).buckets = some b →
      0 ≤ b.tokens ∧ b.tokens ≤ b.capacity) ∧
    mapGet "c:op" (checkLimit { clientLimits := [], buckets := [] } "c" "op" 0).2.buckets
      = some { refillBucket
          (getBucket { clientLimits := [], buckets := [] } "c" "op" 0).1 0 with
        tokens := (refillBucket
          (getBucket { clientLimits := [], buckets := [] } "c" "op" 0).1 0).tokens - 1 } := by
  constructor
  · exact c10_bucket_invariant.1 [RLOp.check "c" "op" 0, RLOp.wait "c" "op" 5]
      { clientLimits := [], buckets := [] }
      (fun k cl hk => by simp [mapGet] at hk)
      (fun k b hk => by simp [mapGet] at hk)
  · exact c10_bucket_invariant.2 { clientLimits := [], buckets := [] } "c" "op" 0
      (by with_unfolding_all rfl)

/-! ## Claim C8 -/

theorem addRule_ok (rule : AccessRule) (rules : List AccessRule)
    (hc : rule.clientId ≠ "") (hr : rule.resource ≠ "") (ha : rule.actions ≠ []) :
    addRule rule rules = Except.ok
      (if rules.any (fun r => r.clientId == rule.clientId && r.resource == rule.resource)
       then setRuleFirst rule rules
       else rules ++ [rule]) := by
  have hcond : (rule.clientId == "" || rule.resource == "" || rule.actions.isEmpty)
      = false := by
    simp [hc, hr, ha]
  unfold addRule
  rw [hcond]
  simp only [Bool.false_eq_true, if_false]
  split <;> rfl

theorem countRulesFor_setRuleFirst (rule : AccessRule) :
    ∀ (rules : List AccessRule) (cid res : String),
    countRulesFor (setRuleFirst rule rules) cid res = countRulesFor rules cid res
  | [], _, _ => rfl
  | r :: rest, cid, res => by
    have ih := countRulesFor_setRuleFirst rule rest cid res
    simp only [setRuleFirst]
    by_cases hk : (r.clientId == rule.clientId && r.resource == rule.resource) = true
    · rw [if_pos hk]
      simp only [Bool.and_eq_true, beq_iff_eq] at hk
      obtain ⟨hkc, hkr⟩ := hk
      simp only [countRulesFor, List.filter_cons, hkc, hkr]
      split <;> simp
    · rw [if_neg hk]
      simp only [countRulesFor, List.filter_cons] at ih ⊢
      cases hpr : (r.clientId == cid && r.resource == res) <;> simp [hpr, ih]

theorem filter_setRuleFirst_key (r2 rule : AccessRule)
    (hkc : rule.clientId = r2.clientId) (hkr : rule.resource = r2.resource) :
    ∀ rules : List AccessRule,
    (rules.filter (fun x => x.clientId == r2.clientId && x.resource == r2.resource)).length ≤ 1 →
    rules.any (fun x => x.clientId == r2.clientId && x.resource == r2.resource) = true →
    (setRuleFirst rule rules).filter
        (fun x => x.clientId == r2.clientId && x.resource == r2.resource)
      = [rule]
  | [], _, hany => by cases hany
  | r :: rest, hlen, hany => by
    by_cases hk : (r.clientId == r2.clientId && r.resource == r2.resource) = true
    · have hcond : (r.clientId == rule.clientId && r.resource == rule.resource) = true := by
        rw [hkc, hkr]
        exact hk
      simp only [setRuleFirst, if_pos hcond]
      have hprule : (rule.clientId == r2.clientId && rule.resource == r2.resource) = true := by
        simp [hkc, hkr]
      have hrest : (rest.filter
          (fun x => x.clientId == r2.clientId && x.resource == r2.resource)) = [] := by
        simp only [List.filter_cons, hk, if_pos] at hlen
        have : (rest.filter
            (fun x => x.clientId == r2.clientId && x.resource == r2.resource)).length = 0 := by
          simp only [List.length_cons] at hlen
          omega
        exact List.eq_nil_of_length_eq_zero this
      simp [List.filter_cons, hprule, hrest]
    · have hk' : (r.clientId == r2.clientId && r.resource == r2.resource) = false := by
        revert hk
        cases (r.clientId == r2.clientId && r.resource == r2.resource) <;> simp
      have hcond : (r.clientId == rule.clientId && r.resource == rule.resource) = false := by
        rw [hkc, hkr]
        exact hk'
      have hsr : setRuleFirst rule (r :: rest) = r :: setRuleFirst rule rest := by
        simp only [setRuleFirst]
        rw [if_neg (by simp [hcond])]
      rw [hsr]
      simp only [List.filter_cons, hk', Bool.false_eq_true, if_false] at hlen
      simp only [List.filter_cons, hk', Bool.false_eq_true, if_false]
      have hany' : (rest.any
          (fun x => x.clientId == r2.clientId && x.resource == r2.resource)) = true := by
        simp only [List.any_cons, hk', Bool.false_or] at hany
        exact hany
      exact filter_setRuleFirst_key r2 rule hkc hkr rest hlen hany'

/-- C8: adding two valid rules with the same `(clientId, resource)` key in
sequence (with different actions or not) leaves exactly one stored rule
for that key — the second rule; and in general `addRule` never creates a
duplicate key (second conjunct: it preserves the at-most-one-rule-per-key
invariant). -/
theorem c8_addRule_replace (rules : List AccessRule) (r1 r2 : AccessRule)
    (hk1 : r1.clientId = r2.clientId) (hk2 : r1.resource = r2.resource)
    (hv1c : r1.clientId ≠ "") (hv1r : r1.resource ≠ "") (hv1a : r1.actions ≠ [])
    (hv2c : r2.clientId ≠ "") (hv2r : r2.resource ≠ "") (hv2a : r2.actions ≠ [])
    (hdup : countRulesFor rules r2.clientId r2.resource ≤ 1) :
    (∃ rules1 rules2,
      addRule r1 rules = Except.ok rules1 ∧
      addRule r2 rules1 = Except.ok rules2 ∧
      countRulesFor rules2 r2.clientId r2.resource = 1 ∧
      ∀ r ∈ rules2,
        (r.clientId == r2.clientId && r.resource == r2.resource) = true → r = r2) ∧
    (∀ (rule : AccessRule) (rs rs' : List AccessRule),
      addRule rule rs = Except.ok rs' →
      (∀ cid res, countRulesFor rs cid res ≤ 1) →
      ∀ cid res, countRulesFor rs' cid res ≤ 1) := by
  constructor
  · have hok1 := addRule_ok r1 rules hv1c hv1r hv1a
    simp only [hk1, hk2] at hok1
    simp only [countRulesFor] at hdup
    have hpr1 : (r1.clientId == r2.clientId && r1.resource == r2.resource) = true := by
      simp [hk1, hk2]
    -- in both branches the first add leaves exactly the rule r1 under the key
    have hflt1 : ∀ rules1, addRule r1 rules = Except.ok rules1 →
        rules1.filter (fun x => x.clientId == r2.clientId && x.resource == r2.resource)
          = [r1] := by
      intro rules1 h1
      rw [hok1] at h1
      injection h1 with h1
      by_cases hAny : (rules.any
          (fun x => x.clientId == r2.clientId && x.resource == r2.resource)) = true
      · rw [if_pos hAny] at h1
        rw [← h1]
        exact filter_setRuleFirst_key r2 r1 hk1 hk2 rules hdup hAny
      · rw [if_neg hAny] at h1
        rw [← h1, List.filter_append]
        have hnil : rules.filter
            (fun x => x.clientId == r2.clientId && x.resource == r2.resource) = [] := by
          rw [List.filter_eq_nil_iff]
          intro a ha
          intro hpa
          exact hAny (List.any_eq_true.mpr ⟨a, ha, hpa⟩)
        rw [hnil]
        simp [hpr1]
    refine ⟨_, _, hok1, addRule_ok r2 _ hv2c hv2r hv2a, ?_, ?_⟩
    · -- after the second add the filtered store is exactly [r2]
      have hf1 := hflt1 _ hok1
      have hany1 :
          ((if (rules.any fun x => x.clientId == r2.clientId && x.resource == r2.resource) = true
            then setRuleFirst r1 rules else rules ++ [r1]).any
            (fun x => x.clientId == r2.clientId && x.resource == r2.resource)) = true := by
        rw [List.any_eq_true]
        have : r1 ∈ (if (rules.any fun x => x.clientId == r2.clientId && x.resource == r2.resource) = true
            then setRuleFirst r1 rules else rules ++ [r1]).filter
            (fun x => x.clientId == r2.clientId && x.resource == r2.resource) := by
          rw [hf1]
          exact List.mem_singleton.mpr rfl
        obtain ⟨hm, hp⟩ := List.mem_filter.mp this
        exact ⟨r1, hm, hp⟩
      have hflt2 := filter_setRuleFirst_key r2 r2 rfl rfl
        (if (rules.any fun x => x.clientId == r2.clientId && x.resource == r2.resource) = true
          then setRuleFirst r1 rules else rules ++ [r1])
        (by rw [hf1]; simp) hany1
      rw [if_pos hany1]
      simp only [countRulesFor]
      rw [hflt2]
      rfl
    · intro r hr hp
      have hany1 :
          ((if (rules.any fun x => x.clientId == r2.clientId && x.resource == r2.resource) = true
            then setRuleFirst r1 rules else rules ++ [r1]).any
            (fun x => x.clientId == r2.clientId && x.resource == r2.resource)) = true := by
        rw [List.any_eq_true]
        have hf1 := hflt1 _ hok1
        have : r1 ∈ (if (rules.any fun x => x.clientId == r2.clientId && x.resource == r2.resource) = true
            then setRuleFirst r1 rules else rules ++ [r1]).filter
            (fun x => x.clientId == r2.clientId && x.resource == r2.resource) := by
          rw [hf1]
          exact List.mem_singleton.mpr rfl
        obtain ⟨hm, hpp⟩ := List.mem_filter.mp this
        exact ⟨r1, hm, hpp⟩
      have hflt2 := filter_setRuleFirst_key r2 r2 rfl rfl
        (if (rules.any fun x => x.clientId == r2.clientId && x.resource == r2.resource) = true
          then setRuleFirst r1 rules else rules ++ [r1])
        (by rw [hflt1 _ hok1]; simp) hany1
      rw [if_pos hany1] at hr
      have : r ∈ (setRuleFirst r2
          (if (rules.any fun x => x.clientId == r2.clientId && x.resource == r2.resource) = true
            then setRuleFirst r1 rules else rules ++ [r1])).filter
          (fun x => x.clientId == r2.clientId && x.resource == r2.resource) :=
        List.mem_filter.mpr ⟨hr, hp⟩
      rw [hflt2] at this
      exact List.mem_singleton.mp this
  · intro rule rs rs' hadd hbound cid res
    unfold addRule at hadd
    split at hadd
    · exact Except.noConfusion hadd
    · split at hadd
      · injection hadd with h
        subst h
        rw [countRulesFor_setRuleFirst]
        exact hbound cid res
      · injection hadd with h
        subst h
        rename_i _ hnotany
        simp only [countRulesFor, List.filter_append]
        by_cases hp : (rule.clientId == cid && rule.resource == res) = true
        · simp only [Bool.and_eq_true, beq_iff_eq] at hp
          obtain ⟨hpc, hpr⟩ := hp
          subst hpc
          subst hpr
          have hnil : rs.filter
              (fun r => r.clientId == rule.clientId && r.resource == rule.resource)
              = [] := by
            rw [List.filter_eq_nil_iff]
            intro a ha hpa
            exact hnotany (List.any_eq_true.mpr ⟨a, ha, hpa⟩)
          rw [hnil]
          simp
        · have hp' : (rule.clientId == cid && rule.resource == res) = false := by
            revert hp
            cases (rule.clientId == cid && rule.resource == res) <;> simp
          simp only [List.filter_cons, hp', Bool.false_eq_true, if_false,
            List.filter_nil, List.append_nil]
          exact hbound cid res

/-- C8 witness: two single-key adds on an empty store leave exactly one
rule, and the general invariant instantiated on a one-rule store. -/
theorem c8_witness :
    countRulesFor [(⟨"c1", "res", ["write"], none⟩ : AccessRule)] "c1" "res" = 1 ∧
    countRulesFor [(⟨"a", "b", ["read"], none⟩ : AccessRule)] "a" "b" ≤ 1 := by
  constructor
  · obtain ⟨rules1, rules2, h1, h2, h3, _⟩ :=
      (c8_addRule_replace [] ⟨"c1", "res", ["read"], none⟩
        ⟨"c1", "res", ["write"], none⟩
        rfl rfl (by decide) (by decide) (by decide) (by decide) (by decide)
        (by decide) (by decide)).1
    have e1 : rules1 = [(⟨"c1", "res", ["read"], none⟩ : AccessRule)] := by
      have hcomp : addRule (⟨"c1", "res", ["read"], none⟩ : AccessRule) []
          = Except.ok [(⟨"c1", "res", ["read"], none⟩ : AccessRule)] := by
        with_unfolding_all rfl
      rw [hcomp] at h1
      injection h1 with h1
      exact h1.symm
    subst e1
    have e2 : rules2 = [(⟨"c1", "res", ["write"], none⟩ : AccessRule)] := by
      have hcomp : addRule (⟨"c1", "res", ["write"], none⟩ : AccessRule)
          [(⟨"c1", "res", ["read"], none⟩ : AccessRule)]
          = Except.ok [(⟨"c1", "res", ["write"], none⟩ : AccessRule)] := by
        with_unfolding_all rfl
      rw [hcomp] at h2
      injection h2 with h2
      exact h2.symm
    rw [e2] at h3
    exact h3
  · exact (c8_addRule_replace [] ⟨"a", "b", ["read"], none⟩
      ⟨"a", "b", ["read"], none⟩
      rfl rfl (by decide) (by decide) (by decide) (by decide) (by decide)
      (by decide) (by decide)).2
      ⟨"a", "b", ["read"], none⟩
      [] [(⟨"a", "b", ["read"], none⟩ : AccessRule)]
      (by with_unfolding_all rfl)
      (fun cid res => by simp [countRulesFor]) "a" "b"

/-! ## Claim C9 -/

theorem sizeCheck_logQueue (opts : AuditLoggerOptions) (sizeMB : Option Rat)
    (rotName : String) (st : LoggerState) :
    (sizeCheck opts sizeMB rotName st).logQueue = st.logQueue := by
  cases sizeMB with
  | none => rfl
  | some size =>
    simp only [sizeCheck]
    split
    · split <;> rfl
    · rfl

theorem writeLogTry_ok_logQueue (opts : AuditLoggerOptions)
    (fsFailure : Option String) (sizeMB : Option Rat) (rotName : String)
    (entry : JVal) (st st' : LoggerState)
    (h : writeLogTry opts fsFailure sizeMB rotName entry st = Except.ok st') :
    st'.logQueue = st.logQueue := by
  cases fsFailure with
  | some msg => exact Except.noConfusion h
  | none =>
    simp only [writeLogTry] at h
    split at h
    · injection h with h
      subst h
      exact sizeCheck_logQueue opts sizeMB rotName (writeStep opts entry st)
    · injection h with h
      subst h
      rfl

theorem writeLog_logQueue (opts : AuditLoggerOptions) (fsFailure : Option String)
    (sizeMB : Option Rat) (rotName : String) (entry : JVal) (st : LoggerState) :
    (writeLog opts fsFailure sizeMB rotName entry st).logQueue = st.logQueue := by
  unfold writeLog
  cases h : writeLogTry opts fsFailure sizeMB rotName entry st with
  | ok st' =>
    simp only []
    exact writeLogTry_ok_logQueue opts fsFailure sizeMB rotName entry st st' h
  | error msg =>
    simp only []

theorem drainQueue_logQueue (opts : AuditLoggerOptions) :
    ∀ (entries : List JVal) (fsFailures : List (Option String)) (st : LoggerState),
    (drainQueue opts fsFailures entries st).logQueue = st.logQueue
  | [], _, _ => rfl
  | e :: rest, fails, st => by
    rw [drainQueue,
        drainQueue_logQueue opts rest (fails.drop 1)
          (writeLog opts (fails.headD none) none "" e st),
        writeLog_logQueue]

/-- C9: recording an audit entry never raises an error to the caller: the
enqueue-and-drain operation always returns normally with an empty queue no
matter how the file-system writes fail (first conjunct), and a failing
file-system write is swallowed — `writeLog` leaves the logger state
untouched except for appending the failure to the stderr diagnostics
(second conjunct). -/
theorem c9_record_never_fails :
    (∀ (opts : AuditLoggerOptions) (fsFailures : List (Option String))
        (entry : JVal) (st : LoggerState),
      (logOp opts fsFailures entry st).logQueue = []) ∧
    (∀ (opts : AuditLoggerOptions) (msg : String) (sizeMB : Option Rat)
        (rotName : String) (entry : JVal) (st : LoggerState),
      writeLog opts (some msg) sizeMB rotName entry st
        = { st with
            diagnostics := st.diagnostics ++ ["Failed to write log: " ++ msg] }) := by
  constructor
  · intro opts fsFailures entry st
    unfold logOp
    rw [drainQueue_logQueue]
  · intro opts msg sizeMB rotName entry st
    rfl

end FirebaseMcp
